import Mathlib

/-!
Shallow embedding of the `src/app` module of the ittybitty torrent TUI client
(files `state.rs`, `util.rs`, `input.rs`, `reducer.rs`, `effects.rs`).

Rust strings are modelled as Lean `String` except the text-entry input buffer,
which is modelled as `List Char` (the sequence of characters of the Rust
`String`); the byte-index arithmetic of the Rust code is mirrored by
`cursor_to_byte_index` below, and the editing operations are expressed at the
character positions those byte indices denote.  `std::time::Instant` is
modelled as a `Nat` count of milliseconds.  The librqbit engine and the
filesystem are external collaborators and are modelled as an oracle `Env` of
response functions; every call an effect makes is recorded in an `ApiCall`
trace.
-/

namespace IttyBitty

/-- `Mode` from `state.rs`. -/
inductive Mode
  | Normal
  | EnterMagnet
  | EnterTorrentDir
  | FilePicker
  deriving DecidableEq, Repr

/-- `Dialog` from `state.rs`. -/
inductive Dialog
  | None
  | AddTorrent
  | ConfirmDelete
  | ConfirmQuit
  | Help
  | FilePicker
  | Error
  deriving DecidableEq, Repr

/-- `View` from `state.rs`. -/
inductive View
  | Torrents
  | Peers
  | Info
  deriving DecidableEq, Repr

/-- `FocusPanel` from `state.rs`. -/
inductive FocusPanel
  | Filters
  | Torrents
  deriving DecidableEq, Repr

/-- `FilterKind` from `state.rs`. -/
inductive FilterKind
  | All
  | Downloading
  | Seeding
  | Paused
  | Stopped
  | Error
  deriving DecidableEq, Repr

/-- `FILTERS` from `state.rs`. -/
def FILTERS : List FilterKind :=
  [FilterKind.All, FilterKind.Downloading, FilterKind.Seeding,
   FilterKind.Paused, FilterKind.Stopped, FilterKind.Error]

/-- `librqbit::TorrentStatsState` (the states the client matches on). -/
inductive TorrentStatsState
  | Initializing
  | Paused
  | Live
  | Error
  deriving DecidableEq, Repr

/-- The fields of `librqbit::TorrentStats` the client reads. -/
structure TorrentStats where
  state : TorrentStatsState
  finished : Bool
  total_bytes : Nat
  progress_bytes : Nat
  deriving DecidableEq, Repr

/-- `TorrentRow` from `state.rs`. -/
structure TorrentRow where
  id : Nat
  name : String
  info_hash : Option String
  output_folder : String
  stats : Option TorrentStats
  deriving DecidableEq, Repr

/-- `FileEntry` from `state.rs`. -/
structure FileEntry where
  name : String
  length : Nat
  included : Bool
  deriving DecidableEq, Repr

/-- `FilePickerState` from `state.rs`. -/
structure FilePickerState where
  magnet : String
  output_folder : String
  files : List FileEntry
  cursor : Nat
  deriving DecidableEq, Repr

/-- The `App` state record from `state.rs`.  The `api : Api` handle is the
engine collaborator and lives outside the state in this embedding (it is the
`Env` oracle); `session_stats` holds an abstracted snapshot. -/
structure App where
  torrents : List TorrentRow
  selected : Nat
  mode : Mode
  input : List Char
  input_cursor : Nat
  last_char_at : Option Nat
  download_dir : String
  status : String
  last_error : Option String
  file_picker : Option FilePickerState
  session_stats : Option Unit
  view : View
  confirm_delete : Bool
  delete_choice : Bool
  confirm_quit : Bool
  quit_choice : Bool
  focus : FocusPanel
  filter_index : Nat
  pending_add_input : Option String
  show_help : Bool
  help_scroll : Nat
  dialog : Dialog
  deriving DecidableEq, Repr

/-- `App::new` from `state.rs`. -/
def App.new (download_dir : String) : App where
  torrents := []
  selected := 0
  mode := Mode.Normal
  input := []
  input_cursor := 0
  last_char_at := none
  download_dir := download_dir
  status := "Ready"
  last_error := none
  file_picker := none
  session_stats := none
  view := View.Torrents
  confirm_delete := false
  delete_choice := false
  confirm_quit := false
  quit_choice := false
  focus := FocusPanel.Torrents
  filter_index := 0
  pending_add_input := none
  show_help := false
  help_scroll := 0
  dialog := Dialog.None

/-- `App::selected_torrent` from `state.rs` (`self.torrents.get(self.selected)`). -/
def App.selected_torrent (a : App) : Option TorrentRow :=
  a.torrents.get? a.selected

/-- `App::selected_filter` from `state.rs`. -/
def App.selected_filter (a : App) : FilterKind :=
  (FILTERS.get? a.filter_index).getD FilterKind.All

/-- `App::set_error` from `state.rs`. -/
def App.set_error (a : App) (err : String) : App :=
  { a with
    last_error := some err
    status := "Error"
    mode := Mode.Normal
    file_picker := none
    confirm_delete := false
    confirm_quit := false
    show_help := false
    help_scroll := 0
    pending_add_input := none
    input := []
    input_cursor := 0
    last_char_at := none
    dialog := Dialog.Error }

/-- `App::clear_error` from `state.rs`. -/
def App.clear_error (a : App) : App :=
  { a with
    last_error := none
    status := "Ready"
    dialog := Dialog.None }

/-- `App::has_same_destination` from `state.rs`. -/
def App.has_same_destination (a : App) (info_hash output_folder : String) : Bool :=
  a.torrents.any fun t =>
    (match t.info_hash with
     | some h => h == info_hash
     | none => false)
    && t.output_folder == output_folder

/-- `App::should_ignore_paste_char` from `state.rs`; `now` is the value of
`Instant::now()` in milliseconds.  Returns the boolean result together with
the mutated state. -/
def App.should_ignore_paste_char (a : App) (now : Nat) : Bool × App :=
  if a.dialog ≠ Dialog.None then
    (false, a)
  else
    match a.last_char_at with
    | some last =>
      if now - last ≤ 200 then
        (true, { a with last_char_at := some now, status := "Paste ignored" })
      else
        (false, { a with last_char_at := some now })
    | none => (false, { a with last_char_at := some now })

/-- The UTF-8 byte length of one character (Rust `char::len_utf8`). -/
def utf8Size (c : Char) : Nat :=
  if c.toNat ≤ 0x7F then 1
  else if c.toNat ≤ 0x7FF then 2
  else if c.toNat ≤ 0xFFFF then 3
  else 4

/-- The UTF-8 byte length of a buffer (Rust `str::len`). -/
def utf8Len (s : List Char) : Nat :=
  (s.map utf8Size).sum

/-- Loop of `cursor_to_byte_index` from `util.rs`: walk `char_indices`,
returning the byte offset of the `cursor`-th character, or the total byte
length when the cursor is past the last character. -/
def ctbiAux : List Char → Nat → Nat → Nat → Nat
  | [], _, _, acc => acc
  | c :: rest, cursor, count, acc =>
    if count = cursor then acc else ctbiAux rest cursor (count + 1) (acc + utf8Size c)

/-- `cursor_to_byte_index` from `util.rs`. -/
def cursor_to_byte_index (s : List Char) (cursor : Nat) : Nat :=
  if cursor = 0 then 0 else ctbiAux s cursor 0 0

/-- `App::insert_char` from `state.rs`: the Rust code inserts at byte index
`cursor_to_byte_index(input, cursor)`, the byte offset of the
`input_cursor`-th character (or the end of the buffer); at the character
level that is an insertion before character position `input_cursor`
(clamped to the end). -/
def App.insert_char (a : App) (c : Char) : App :=
  { a with
    input := a.input.take a.input_cursor ++ [c] ++ a.input.drop a.input_cursor
    input_cursor := a.input_cursor + 1 }

/-- `App::backspace` from `state.rs`: removes the byte range between the
offsets of characters `input_cursor - 1` and `input_cursor` (empty when the
cursor is past the end) and decrements the cursor. -/
def App.backspace (a : App) : App :=
  if a.input_cursor = 0 then a
  else
    { a with
      input := a.input.take (a.input_cursor - 1) ++ a.input.drop a.input_cursor
      input_cursor := a.input_cursor - 1 }

/-- `App::delete` from `state.rs`. -/
def App.delete (a : App) : App :=
  if a.input.length ≤ a.input_cursor then a
  else
    { a with
      input := a.input.take a.input_cursor ++ a.input.drop (a.input_cursor + 1) }

/-- `App::move_cursor_left` from `state.rs`. -/
def App.move_cursor_left (a : App) : App :=
  { a with input_cursor := a.input_cursor - 1 }

/-- `App::move_cursor_right` from `state.rs`. -/
def App.move_cursor_right (a : App) : App :=
  { a with input_cursor := min (a.input_cursor + 1) a.input.length }

/-- `App::filter_match` from `state.rs`. -/
def App.filter_match (a : App) (t : TorrentRow) : Bool :=
  match t.stats with
  | none =>
    match a.selected_filter with
    | FilterKind.All => true
    | FilterKind.Stopped => true
    | _ => false
  | some stats =>
    let is_seeding := stats.finished
      || (decide (0 < stats.total_bytes)
          && decide (stats.total_bytes ≤ stats.progress_bytes)
          && stats.state == TorrentStatsState.Live)
    match a.selected_filter with
    | FilterKind.All => true
    | FilterKind.Downloading => stats.state == TorrentStatsState.Live && !stats.finished
    | FilterKind.Seeding => is_seeding
    | FilterKind.Paused => stats.state == TorrentStatsState.Paused
    | FilterKind.Stopped => false
    | FilterKind.Error => stats.state == TorrentStatsState.Error

/-- A placeholder row used only to express Rust's checked indexing
`self.torrents[self.selected]` (read only under `selected < len`). -/
def dummyRow : TorrentRow where
  id := 0
  name := ""
  info_hash := none
  output_folder := ""
  stats := none

/-- The `find_map` over `iter().enumerate()` in
`App::ensure_selection_for_filter`: index of the first row matching the
active filter. -/
def findMatch (a : App) : Nat → List TorrentRow → Option Nat
  | _, [] => none
  | i, t :: rest => if a.filter_match t then some i else findMatch a (i + 1) rest

/-- `App::ensure_selection_for_filter` from `state.rs`. -/
def App.ensure_selection_for_filter (a : App) : App :=
  if a.torrents.isEmpty then { a with selected := 0 }
  else if decide (a.selected < a.torrents.length)
      && a.filter_match (a.torrents.getD a.selected dummyRow) then a
  else
    match findMatch a 0 a.torrents with
    | some idx => { a with selected := idx }
    | none => { a with selected := 0 }

/-- The `filter_map` over `iter().enumerate()` in `App::filtered_indices`. -/
def filteredIndicesAux (a : App) : Nat → List TorrentRow → List Nat
  | _, [] => []
  | i, t :: rest =>
    if a.filter_match t then i :: filteredIndicesAux a (i + 1) rest
    else filteredIndicesAux a (i + 1) rest

/-- `App::filtered_indices` from `state.rs`. -/
def App.filtered_indices (a : App) : List Nat :=
  filteredIndicesAux a 0 a.torrents

/-- `App::move_selection` from `state.rs`. -/
def App.move_selection (a : App) (delta : Int) : App :=
  let indices := a.filtered_indices
  if indices.isEmpty then a
  else
    let current_pos : Int := ((indices.findIdx? (fun idx => idx == a.selected)).getD 0 : Nat)
    let next_pos : Int := min (max (current_pos + delta) 0) ((indices.length : Int) - 1)
    { a with selected := indices.getD next_pos.toNat 0 }

/-! ### Engine collaborator interface (librqbit Api, abstracted) -/

/-- The fields of `librqbit::api::TorrentFileDetails` the client reads. -/
structure TorrentFileDetails where
  name : String
  length : Nat
  included : Bool
  deriving DecidableEq, Repr

/-- The fields of `librqbit::api::TorrentDetailsResponse` the client reads. -/
structure TorrentDetailsResponse where
  id : Option Nat
  info_hash : String
  name : Option String
  output_folder : String
  stats : Option TorrentStats
  files : Option (List TorrentFileDetails)
  deriving DecidableEq, Repr

/-- The fields of `librqbit::api::ApiAddTorrentResponse` the client reads. -/
structure ApiAddTorrentResponse where
  id : Option Nat
  details : TorrentDetailsResponse
  deriving DecidableEq, Repr

/-- The fields of `librqbit::AddTorrentOptions` the client sets. -/
structure AddTorrentOptions where
  list_only : Bool
  paused : Bool
  overwrite : Bool
  only_files : Option (List Nat)
  output_folder : Option String
  deriving DecidableEq, Repr

/-- `AddTorrentOptions::default()`: every flag off, nothing selected. -/
def AddTorrentOptions.default : AddTorrentOptions where
  list_only := false
  paused := false
  overwrite := false
  only_files := none
  output_folder := none

/-- `librqbit::AddTorrent` (the constructors the client builds). -/
inductive AddTorrent
  | url (s : String)
  | torrentFileBytes (data : List Nat)
  deriving DecidableEq, Repr

/-- One call made to the engine or the filesystem, recorded in a trace. -/
inductive ApiCall
  | addTorrent (req : AddTorrent) (opts : AddTorrentOptions)
  | torrentDetails (id : Nat)
  | actionStart (id : Nat)
  | actionPause (id : Nat)
  | actionForget (id : Nat)
  | actionDelete (id : Nat)
  | listTorrents (with_stats : Bool)
  | sessionStats
  | createDir (path : String)
  deriving DecidableEq, Repr

/-- Oracle for the engine collaborator and the filesystem.  Responses are
functions of the request; `addTorrent` additionally receives the retry
attempt index so the bounded-retry probe of `start_file_picker_with_dir`
can be driven through transient failures. -/
structure Env where
  addTorrent : Nat → AddTorrent → AddTorrentOptions → Except String ApiAddTorrentResponse
  torrentDetails : Nat → Except String TorrentDetailsResponse
  actionStart : Nat → Except String Unit
  actionPause : Nat → Except String Unit
  actionForget : Nat → Except String Unit
  actionDelete : Nat → Except String Unit
  listTorrents : Bool → List TorrentDetailsResponse
  pathExists : String → Bool
  readFile : String → Except String (List Nat)
  createDir : String → Except String Unit

/-- Rust `str::trim` (drop whitespace from both ends), at the character
level so that it evaluates by kernel reduction. -/
def rustTrim (l : List Char) : List Char :=
  ((l.dropWhile Char.isWhitespace).reverse.dropWhile Char.isWhitespace).reverse

/-- `str::trim` on the string wrapper. -/
def strTrim (s : String) : String := String.mk (rustTrim s.data)

/-- Rust `str::starts_with` for a literal pattern. -/
def strStartsWith (s p : String) : Bool := s.data.take p.data.length == p.data

/-- `anyhow::Context::context`: annotate an error with the attempted
operation. -/
def withContext (msg : String) : Except String α → Except String α
  | Except.error e => Except.error (msg ++ ": " ++ e)
  | Except.ok v => Except.ok v

/-- Rust `char::is_whitespace` / `char::is_control`, restricted to the ASCII
range plus the usual Unicode space characters the client can meet in a
magnet string (shallow approximation of the Unicode classes). -/
def isWhitespaceOrControl (c : Char) : Bool :=
  c.isWhitespace || decide (c.toNat < 0x20) || decide (c.toNat = 0x7F)

/-- `PathBuf::join` on the string level. -/
def pathJoin (base name : String) : String :=
  base ++ "/" ++ name

/-- `build_add_torrent` from `util.rs`. -/
def build_add_torrent (env : Env) (input : String) : Except String AddTorrent :=
  let trimmed := strTrim input
  let cleaned : String := String.mk (trimmed.data.filter fun c => !isWhitespaceOrControl c)
  if strStartsWith cleaned "magnet:" || strStartsWith cleaned "http://"
      || strStartsWith cleaned "https://" then
    Except.ok (AddTorrent.url cleaned)
  else if env.pathExists trimmed then
    match withContext ("failed to read .torrent file") (env.readFile trimmed) with
    | Except.error e => Except.error e
    | Except.ok data => Except.ok (AddTorrent.torrentFileBytes data)
  else
    Except.error ("Input must be a magnet, URL, or an existing .torrent file path")

/-- `build_picker` from `util.rs`. -/
def build_picker (magnet output_folder : String) (response : ApiAddTorrentResponse) :
    Except String FilePickerState :=
  let files := (response.details.files.getD []).map fun f =>
    { name := f.name, length := f.length, included := f.included : FileEntry }
  Except.ok { magnet := magnet, output_folder := output_folder, files := files, cursor := 0 }

/-- `to_row` from `util.rs`. -/
def to_row (details : TorrentDetailsResponse) : Except String TorrentRow :=
  match details.id with
  | none => Except.error ("missing torrent id")
  | some id =>
    Except.ok
      { id := id
        name := (details.name).getD details.info_hash
        info_hash := some details.info_hash
        output_folder := details.output_folder
        stats := details.stats }

/-- `derive_folder_suffix` from `util.rs`. -/
def derive_folder_suffix (response : ApiAddTorrentResponse) : String :=
  match response.details.name with
  | some name =>
    if !(strTrim name).isEmpty then strTrim name
    else
      match (response.details.files.getD []).head? with
      | some first =>
        if !(strTrim first.name).isEmpty then strTrim first.name else "download"
      | none => "download"
  | none =>
    match (response.details.files.getD []).head? with
    | some first =>
      if !(strTrim first.name).isEmpty then strTrim first.name else "download"
    | none => "download"

/-- `sanitize_path_component` from `util.rs`. -/
def sanitize_path_component (input : String) : String :=
  strTrim (String.mk (input.data.map fun ch => if ch = '/' ∨ ch = '\\' then '-' else ch))

/-! ### Actions and effects -/

/-- `Effect` from `effect.rs`. -/
inductive Effect
  | Refresh
  | TogglePause
  | StopSelected
  | DeleteSelectedFiles
  | PreflightAdd (magnet : String)
  | StartFilePicker (magnet : String) (output_folder : String)
  | StartDownload (magnet : String) (output_folder : String) (only_files : List Nat)
  deriving DecidableEq, Repr

/-- The `Action` enum of `app/action.rs` (the file is not part of the source
snapshot; its variants are reproduced exactly from the exhaustive `match` of
`App::apply_action` in `reducer.rs` and the construction sites in
`input.rs` and `effects.rs`). -/
inductive Action
  | Paste (text : String)
  | HelpOpen
  | HelpClose
  | HelpScroll (delta : Int)
  | ErrorClear
  | ConfirmDeleteOpen
  | ConfirmDeleteSelect (choice : Bool)
  | ConfirmDeleteConfirm
  | ConfirmDeleteCancel
  | ConfirmQuitOpen
  | ConfirmQuitSelect (choice : Bool)
  | ConfirmQuitConfirm
  | ConfirmQuitCancel
  | ViewSet (view : View)
  | FocusToggle
  | FocusSet (panel : FocusPanel)
  | MoveSelection (delta : Int)
  | MoveFilter (delta : Int)
  | SetFilter (index : Nat)
  | TogglePause
  | StartAdd
  | InputChar (c : Char)
  | InputBackspace
  | InputDelete
  | InputLeft
  | InputRight
  | InputHome
  | InputEnd
  | InputEnter
  | InputCancel
  | FilePickerCancel
  | FilePickerUp
  | FilePickerDown
  | FilePickerToggle
  | FilePickerAll
  | FilePickerNone
  | FilePickerConfirm
  | Refresh
  | RunEffect (effect : Effect)
  | PreflightAddResult (magnet : String)
  deriving DecidableEq, Repr

instance {ε α : Type} [DecidableEq ε] [DecidableEq α] : DecidableEq (Except ε α) := fun x y =>
  match x, y with
  | Except.error e, Except.error f =>
    if h : e = f then isTrue (by rw [h]) else isFalse (by intro hc; cases hc; exact h rfl)
  | Except.error _, Except.ok _ => isFalse (by intro hc; cases hc)
  | Except.ok _, Except.error _ => isFalse (by intro hc; cases hc)
  | Except.ok a, Except.ok b =>
    if h : a = b then isTrue (by rw [h]) else isFalse (by intro hc; cases hc; exact h rfl)

/-- Result of one unit-returning effect helper: the (possibly partially
mutated) state, the `Result<()>`, and the trace of external calls made. -/
structure EffResult where
  app : App
  res : Except String Unit
  calls : List ApiCall
  deriving DecidableEq, Repr

/-- Result of `App::run_effect`: the state, the `Result<Vec<Action>>`, and
the trace of external calls made. -/
structure EffOut where
  app : App
  res : Except String (List Action)
  calls : List ApiCall
  deriving DecidableEq, Repr

/-- The `iter().enumerate().filter_map(...included...)` pattern used for
file-inclusion index sets. -/
def enumIncluded (p : α → Bool) : Nat → List α → List Nat
  | _, [] => []
  | i, x :: rest =>
    if p x then i :: enumIncluded p (i + 1) rest else enumIncluded p (i + 1) rest

/-- `App::refresh` from `effects.rs`. -/
def App.refresh (a : App) (env : Env) : App × List ApiCall :=
  let selected_id := (a.torrents.get? a.selected).map (fun t => t.id)
  let a1 := { a with session_stats := some () }
  let rows : List TorrentRow := (env.listTorrents true).filterMap fun t => (to_row t).toOption
  let a2 :=
    if rows.isEmpty then { a1 with selected := 0 }
    else
      match selected_id with
      | some id =>
        match rows.findIdx? (fun r => r.id == id) with
        | some idx => { a1 with selected := idx }
        | none => { a1 with selected := min a1.selected (rows.length - 1) }
      | none => { a1 with selected := min a1.selected (rows.length - 1) }
  (App.ensure_selection_for_filter { a2 with torrents := rows },
   [ApiCall.sessionStats, ApiCall.listTorrents true])

/-- `App::preflight_add` from `effects.rs` (it never mutates the state). -/
def App.preflight_add (a : App) (env : Env) (magnet : String) :
    Except String (List Action) × List ApiCall :=
  match build_add_torrent env magnet with
  | Except.error e => (Except.error e, [])
  | Except.ok add =>
    let opts := { AddTorrentOptions.default with
      list_only := true, output_folder := some a.download_dir }
    match withContext ("error listing files") (env.addTorrent 0 add opts) with
    | Except.error e => (Except.error e, [ApiCall.addTorrent add opts])
    | Except.ok response =>
      let info_hash := response.details.info_hash
      let existing := (env.listTorrents false).any fun t => t.info_hash == info_hash
      if existing then
        (Except.error ("Torrent already added; duplicate locations are not supported"),
         [ApiCall.addTorrent add opts, ApiCall.listTorrents false])
      else
        (Except.ok [Action.PreflightAddResult magnet],
         [ApiCall.addTorrent add opts, ApiCall.listTorrents false])

/-- The `for attempt in 0..3` probe loop of `start_file_picker_with_dir`:
`attempt` is the current iteration index, the second argument the number of
iterations left (`3 - attempt`); a transient failure retries while further
iterations remain, matching `attempt < 2` in the source. -/
def probe_go (env : Env) (magnet output_folder : String) :
    Nat → Nat → Except String ApiAddTorrentResponse × List ApiCall
  | _, 0 => (Except.error ("error listing files: unknown"), [])
  | attempt, remaining + 1 =>
    match build_add_torrent env magnet with
    | Except.error e => (Except.error e, [])
    | Except.ok add =>
      let opts := { AddTorrentOptions.default with
        list_only := true, output_folder := some output_folder }
      match env.addTorrent attempt add opts with
      | Except.ok ok => (Except.ok ok, [ApiCall.addTorrent add opts])
      | Except.error err =>
        if 0 < remaining then
          let r := probe_go env magnet output_folder (attempt + 1) remaining
          (r.1, ApiCall.addTorrent add opts :: r.2)
        else
          (Except.error ("error listing files: " ++ err), [ApiCall.addTorrent add opts])

/-- `App::start_file_picker_with_dir` from `effects.rs`. -/
def App.start_file_picker_with_dir (a : App) (env : Env)
    (magnet output_folder : String) : EffResult :=
  match probe_go env magnet output_folder 0 3 with
  | (Except.error e, calls) => ⟨a, Except.error e, calls⟩
  | (Except.ok response, calls) =>
    let info_hash := response.details.info_hash
    let base := output_folder
    let folder_name := sanitize_path_component (derive_folder_suffix response)
    let final_output := pathJoin base folder_name
    if a.has_same_destination info_hash final_output then
      ⟨a, Except.error ("Torrent already added for this download directory"), calls⟩
    else
      let resolved : Except String String :=
        if env.pathExists final_output then
          let short_hash := String.mk (info_hash.data.take 8)
          let final_output2 := pathJoin base (folder_name ++ "-" ++ short_hash)
          if env.pathExists final_output2 then
            Except.error ("Destination folder already exists")
          else Except.ok final_output2
        else Except.ok final_output
      match resolved with
      | Except.error e => ⟨a, Except.error e, calls⟩
      | Except.ok final2 =>
        match withContext ("failed to create download folder") (env.createDir final2) with
        | Except.error e => ⟨a, Except.error e, calls ++ [ApiCall.createDir final2]⟩
        | Except.ok _ =>
          match build_picker magnet final2 response with
          | Except.error e => ⟨a, Except.error e, calls ++ [ApiCall.createDir final2]⟩
          | Except.ok picker =>
            ⟨{ a with
                file_picker := some picker
                mode := Mode.FilePicker
                status := "Select files and press Enter"
                dialog := Dialog.FilePicker },
             Except.ok (), calls ++ [ApiCall.createDir final2]⟩

/-- `App::start_download` from `effects.rs`.  The compensating
`api_torrent_action_delete` call has its result ignored by the source
(`let _ = ...`), so only the call itself is recorded. -/
def App.start_download (a : App) (env : Env) (magnet output_folder : String)
    (only_files : List Nat) : EffResult :=
  if only_files.isEmpty then ⟨a, Except.error ("No files selected"), []⟩
  else
    let expected : Finset Nat := only_files.toFinset
    match build_add_torrent env magnet with
    | Except.error e => ⟨a, Except.error e, []⟩
    | Except.ok add =>
      let opts := { AddTorrentOptions.default with
        paused := true
        only_files := some only_files
        output_folder := some output_folder
        overwrite := true }
      let c0 := [ApiCall.addTorrent add opts]
      match withContext ("error adding torrent") (env.addTorrent 0 add opts) with
      | Except.error e => ⟨a, Except.error e, c0⟩
      | Except.ok response =>
        match response.id with
        | none => ⟨a, Except.error ("torrent was not added"), c0⟩
        | some id =>
          match withContext ("error verifying file selection") (env.torrentDetails id) with
          | Except.error e => ⟨a, Except.error e, c0 ++ [ApiCall.torrentDetails id]⟩
          | Except.ok details =>
            match details.files with
            | none =>
              ⟨a, Except.error ("torrent details missing files"),
               c0 ++ [ApiCall.torrentDetails id]⟩
            | some files =>
              let actual : Finset Nat :=
                (enumIncluded (fun f => f.included) 0 files).toFinset
              if actual ≠ expected then
                ⟨a, Except.error ("File selection was not honored; torrent was removed"),
                 c0 ++ [ApiCall.torrentDetails id, ApiCall.actionDelete id]⟩
              else
                match withContext ("error starting torrent") (env.actionStart id) with
                | Except.error e =>
                  ⟨a, Except.error e,
                   c0 ++ [ApiCall.torrentDetails id, ApiCall.actionStart id]⟩
                | Except.ok _ =>
                  ⟨{ a with status := "Torrent added" }, Except.ok (),
                   c0 ++ [ApiCall.torrentDetails id, ApiCall.actionStart id]⟩

/-- `App::toggle_pause` from `effects.rs`. -/
def App.toggle_pause (a : App) (env : Env) : EffResult :=
  match a.selected_torrent with
  | none => ⟨a, Except.ok (), []⟩
  | some t =>
    match t.stats with
    | none => ⟨a, Except.ok (), []⟩
    | some stats =>
      match stats.state with
      | TorrentStatsState.Paused =>
        match withContext ("error resuming torrent") (env.actionStart t.id) with
        | Except.error e => ⟨a, Except.error e, [ApiCall.actionStart t.id]⟩
        | Except.ok _ => ⟨{ a with status := "Resumed" }, Except.ok (), [ApiCall.actionStart t.id]⟩
      | TorrentStatsState.Live =>
        match withContext ("error pausing torrent") (env.actionPause t.id) with
        | Except.error e => ⟨a, Except.error e, [ApiCall.actionPause t.id]⟩
        | Except.ok _ => ⟨{ a with status := "Paused" }, Except.ok (), [ApiCall.actionPause t.id]⟩
      | TorrentStatsState.Initializing =>
        match withContext ("error pausing torrent") (env.actionPause t.id) with
        | Except.error e => ⟨a, Except.error e, [ApiCall.actionPause t.id]⟩
        | Except.ok _ => ⟨{ a with status := "Paused" }, Except.ok (), [ApiCall.actionPause t.id]⟩
      | TorrentStatsState.Error =>
        ⟨{ a with status := "Cannot pause: torrent error" }, Except.ok (), []⟩

/-- `App::stop_selected` from `effects.rs`. -/
def App.stop_selected (a : App) (env : Env) : EffResult :=
  match a.selected_torrent with
  | none => ⟨a, Except.ok (), []⟩
  | some t =>
    match withContext ("error stopping torrent") (env.actionForget t.id) with
    | Except.error e => ⟨a, Except.error e, [ApiCall.actionForget t.id]⟩
    | Except.ok _ =>
      ⟨{ a with status := "Stopped (forgotten)" }, Except.ok (), [ApiCall.actionForget t.id]⟩

/-- `App::delete_selected_files` from `effects.rs`. -/
def App.delete_selected_files (a : App) (env : Env) : EffResult :=
  match a.selected_torrent with
  | none => ⟨a, Except.ok (), []⟩
  | some t =>
    match withContext ("error deleting torrent and files") (env.actionDelete t.id) with
    | Except.error e => ⟨a, Except.error e, [ApiCall.actionDelete t.id]⟩
    | Except.ok _ =>
      ⟨{ a with status := "Deleted torrent and files" }, Except.ok (),
       [ApiCall.actionDelete t.id]⟩

/-- Adapt a unit-returning effect helper to the `run_effect` result shape. -/
def EffResult.toOut (r : EffResult) : EffOut :=
  ⟨r.app, r.res.map (fun _ => []), r.calls⟩

/-- `App::run_effect` from `effects.rs`. -/
def App.run_effect (a : App) (env : Env) : Effect → EffOut
  | Effect.Refresh =>
    let r := a.refresh env
    ⟨r.1, Except.ok [], r.2⟩
  | Effect.TogglePause => (a.toggle_pause env).toOut
  | Effect.StopSelected => (a.stop_selected env).toOut
  | Effect.DeleteSelectedFiles => (a.delete_selected_files env).toOut
  | Effect.PreflightAdd magnet =>
    let r := a.preflight_add env magnet
    ⟨a, r.1, r.2⟩
  | Effect.StartFilePicker magnet output_folder =>
    (a.start_file_picker_with_dir env magnet output_folder).toOut
  | Effect.StartDownload magnet output_folder only_files =>
    let a1 := { a with status := "Starting download...", last_error := none }
    let r := a1.start_download env magnet output_folder only_files
    match r.res with
    | Except.error e => ⟨r.app, Except.error e, r.calls⟩
    | Except.ok _ =>
      ⟨{ r.app with file_picker := none, mode := Mode.Normal, dialog := Dialog.None },
       Except.ok [], r.calls⟩

/-! ### Reducer -/

/-- Result of `App::apply_action`: the state, the queue (the popped action's
pushes appended at the tail), the `Result<Option<bool>>`, and the trace. -/
structure StepOut where
  app : App
  queue : List Action
  res : Except String (Option Bool)
  calls : List ApiCall
  deriving DecidableEq, Repr

/-- Replace the element at one position (`picker.files.get_mut(cursor)`). -/
def modifyAt (f : α → α) : Nat → List α → List α
  | _, [] => []
  | 0, x :: rest => f x :: rest
  | n + 1, x :: rest => x :: modifyAt f n rest

/-- The trailing `if !matches!(self.mode, FilePicker | EnterTorrentDir)
{ self.mode = Normal }` of the `InputEnter` arm. -/
def inputEnterFinish (a : App) : App :=
  if a.mode = Mode.FilePicker ∨ a.mode = Mode.EnterTorrentDir then a
  else { a with mode := Mode.Normal }

/-- `App::apply_action` from `reducer.rs`; `now` is `Instant::now()` in
milliseconds, `q` the rest of the queue after popping `act`. -/
def App.apply_action (a : App) (env : Env) (now : Nat) (act : Action)
    (q : List Action) : StepOut :=
  match act with
  | Action.Paste text =>
    if a.mode = Mode.EnterMagnet ∨ a.mode = Mode.EnterTorrentDir then
      ⟨{ a with input := text.data, input_cursor := text.data.length },
       q, Except.ok none, []⟩
    else
      ⟨{ a with last_char_at := some now, status := "Paste ignored" },
       q, Except.ok none, []⟩
  | Action.HelpOpen =>
    ⟨{ a with show_help := true, help_scroll := 0, dialog := Dialog.Help },
     q, Except.ok none, []⟩
  | Action.HelpClose =>
    ⟨{ a with show_help := false, help_scroll := 0, dialog := Dialog.None },
     q, Except.ok none, []⟩
  | Action.HelpScroll delta =>
    if delta < 0 then
      ⟨{ a with help_scroll := a.help_scroll - delta.natAbs }, q, Except.ok none, []⟩
    else
      ⟨{ a with help_scroll := min (a.help_scroll + delta.toNat) 65535 },
       q, Except.ok none, []⟩
  | Action.ErrorClear => ⟨a.clear_error, q, Except.ok none, []⟩
  | Action.ConfirmDeleteOpen =>
    if a.selected_torrent.isSome then
      ⟨{ a with
          confirm_delete := true
          delete_choice := false
          dialog := Dialog.ConfirmDelete }, q, Except.ok none, []⟩
    else ⟨a, q, Except.ok none, []⟩
  | Action.ConfirmDeleteSelect choice =>
    ⟨{ a with delete_choice := choice }, q, Except.ok none, []⟩
  | Action.ConfirmDeleteConfirm =>
    if a.delete_choice then
      ⟨{ a with confirm_delete := false, delete_choice := false, dialog := Dialog.None },
       q ++ [Action.RunEffect Effect.DeleteSelectedFiles], Except.ok none, []⟩
    else
      ⟨{ a with confirm_delete := false, delete_choice := false, dialog := Dialog.None },
       q ++ [Action.RunEffect Effect.StopSelected], Except.ok none, []⟩
  | Action.ConfirmDeleteCancel =>
    ⟨{ a with
        confirm_delete := false
        delete_choice := false
        status := "Delete cancelled"
        dialog := Dialog.None }, q, Except.ok none, []⟩
  | Action.ConfirmQuitOpen =>
    ⟨{ a with confirm_quit := true, quit_choice := false, dialog := Dialog.ConfirmQuit },
     q, Except.ok none, []⟩
  | Action.ConfirmQuitSelect choice =>
    ⟨{ a with quit_choice := choice }, q, Except.ok none, []⟩
  | Action.ConfirmQuitConfirm =>
    if a.quit_choice then ⟨a, q, Except.ok (some true), []⟩
    else
      ⟨{ a with
          confirm_quit := false
          quit_choice := false
          status := "Quit cancelled"
          dialog := Dialog.None }, q, Except.ok none, []⟩
  | Action.ConfirmQuitCancel =>
    ⟨{ a with
        confirm_quit := false
        quit_choice := false
        status := "Quit cancelled"
        dialog := Dialog.None }, q, Except.ok none, []⟩
  | Action.ViewSet view => ⟨{ a with view := view }, q, Except.ok none, []⟩
  | Action.FocusToggle =>
    ⟨{ a with focus := match a.focus with
        | FocusPanel.Filters => FocusPanel.Torrents
        | FocusPanel.Torrents => FocusPanel.Filters }, q, Except.ok none, []⟩
  | Action.FocusSet panel => ⟨{ a with focus := panel }, q, Except.ok none, []⟩
  | Action.MoveSelection delta => ⟨a.move_selection delta, q, Except.ok none, []⟩
  | Action.MoveFilter delta =>
    let a1 :=
      if delta < 0 then { a with filter_index := a.filter_index - delta.natAbs }
      else { a with filter_index := min (a.filter_index + delta.toNat) (FILTERS.length - 1) }
    ⟨a1.ensure_selection_for_filter, q, Except.ok none, []⟩
  | Action.SetFilter index =>
    ⟨App.ensure_selection_for_filter
        { a with filter_index := min index (FILTERS.length - 1) },
     q, Except.ok none, []⟩
  | Action.TogglePause =>
    ⟨a, q ++ [Action.RunEffect Effect.TogglePause], Except.ok none, []⟩
  | Action.StartAdd =>
    ⟨{ a with
        mode := Mode.EnterMagnet
        input := []
        input_cursor := 0
        status := "Paste magnet/URL/path and press Enter"
        dialog := Dialog.AddTorrent },
     q, Except.ok none, []⟩
  | Action.InputChar c => ⟨a.insert_char c, q, Except.ok none, []⟩
  | Action.InputBackspace => ⟨a.backspace, q, Except.ok none, []⟩
  | Action.InputDelete => ⟨a.delete, q, Except.ok none, []⟩
  | Action.InputLeft => ⟨a.move_cursor_left, q, Except.ok none, []⟩
  | Action.InputRight => ⟨a.move_cursor_right, q, Except.ok none, []⟩
  | Action.InputHome => ⟨{ a with input_cursor := 0 }, q, Except.ok none, []⟩
  | Action.InputEnd => ⟨{ a with input_cursor := a.input.length }, q, Except.ok none, []⟩
  | Action.InputEnter =>
    let a1 := if a.mode = Mode.EnterMagnet then { a with status := "Fetching metadata..." } else a
    let value := strTrim (String.mk a1.input)
    let a2 := { a1 with input := [], input_cursor := 0 }
    match a2.mode with
    | Mode.EnterMagnet =>
      if value.isEmpty then
        ⟨inputEnterFinish (a2.set_error ("Magnet cannot be empty")), q, Except.ok none, []⟩
      else
        match build_add_torrent env value with
        | Except.error err => ⟨inputEnterFinish (a2.set_error err), q, Except.ok none, []⟩
        | Except.ok _ =>
          ⟨inputEnterFinish { a2 with status := "Checking torrent...", dialog := Dialog.None },
           q ++ [Action.RunEffect (Effect.PreflightAdd value)], Except.ok none, []⟩
    | Mode.EnterTorrentDir =>
      match a2.pending_add_input with
      | none => ⟨a2, q, Except.error ("missing pending torrent input"), []⟩
      | some add_input =>
        let output_folder := if value.isEmpty then a2.download_dir else value
        ⟨inputEnterFinish { a2 with
            pending_add_input := none
            status := "Fetching metadata..."
            last_error := none },
         q ++ [Action.RunEffect (Effect.StartFilePicker add_input output_folder)],
         Except.ok none, []⟩
    | _ => ⟨inputEnterFinish a2, q, Except.ok none, []⟩
  | Action.InputCancel =>
    match a.mode, a.pending_add_input with
    | Mode.EnterTorrentDir, some add_input =>
      ⟨{ a with
          pending_add_input := none
          input := []
          input_cursor := 0
          status := "Fetching metadata..."
          last_error := none
          dialog := Dialog.AddTorrent },
       q ++ [Action.RunEffect (Effect.StartFilePicker add_input a.download_dir)],
       Except.ok none, []⟩
    | _, _ =>
      ⟨{ a with
          mode := Mode.Normal
          input := []
          input_cursor := 0
          status := "Cancelled"
          dialog := Dialog.None }, q, Except.ok none, []⟩
  | Action.FilePickerCancel =>
    ⟨{ a with
        mode := Mode.Normal
        file_picker := none
        status := "Cancelled file selection"
        dialog := Dialog.None },
     q, Except.ok none, []⟩
  | Action.FilePickerUp =>
    match a.file_picker with
    | some picker =>
      ⟨{ a with file_picker := some { picker with cursor := picker.cursor - 1 } },
       q, Except.ok none, []⟩
    | none => ⟨a, q, Except.ok none, []⟩
  | Action.FilePickerDown =>
    match a.file_picker with
    | some picker =>
      if picker.files.isEmpty then ⟨a, q, Except.ok none, []⟩
      else
        let p2 := { picker with cursor := min (picker.cursor + 1) (picker.files.length - 1) }
        ⟨{ a with file_picker := some p2 }, q, Except.ok none, []⟩
    | none => ⟨a, q, Except.ok none, []⟩
  | Action.FilePickerToggle =>
    match a.file_picker with
    | some picker =>
      let files2 := modifyAt (fun f => { f with included := !f.included })
        picker.cursor picker.files
      ⟨{ a with file_picker := some { picker with files := files2 } },
       q, Except.ok none, []⟩
    | none => ⟨a, q, Except.ok none, []⟩
  | Action.FilePickerAll =>
    match a.file_picker with
    | some picker =>
      let files2 := picker.files.map fun f => { f with included := true }
      ⟨{ a with file_picker := some { picker with files := files2 } },
       q, Except.ok none, []⟩
    | none => ⟨a, q, Except.ok none, []⟩
  | Action.FilePickerNone =>
    match a.file_picker with
    | some picker =>
      let files2 := picker.files.map fun f => { f with included := false }
      ⟨{ a with file_picker := some { picker with files := files2 } },
       q, Except.ok none, []⟩
    | none => ⟨a, q, Except.ok none, []⟩
  | Action.FilePickerConfirm =>
    match a.file_picker with
    | some picker =>
      let only_files := enumIncluded (fun f => f.included) 0 picker.files
      ⟨a, q ++ [Action.RunEffect
          (Effect.StartDownload picker.magnet picker.output_folder only_files)],
       Except.ok none, []⟩
    | none => ⟨a, q, Except.ok none, []⟩
  | Action.Refresh => ⟨a, q ++ [Action.RunEffect Effect.Refresh], Except.ok none, []⟩
  | Action.RunEffect effect =>
    let r := a.run_effect env effect
    match r.res with
    | Except.error e => ⟨r.app, q, Except.error e, r.calls⟩
    | Except.ok next => ⟨r.app, q ++ next, Except.ok none, r.calls⟩
  | Action.PreflightAddResult magnet =>
    ⟨{ a with
        pending_add_input := some magnet
        mode := Mode.EnterTorrentDir
        input := a.download_dir.data
        input_cursor := a.download_dir.data.length
        status := "Set download dir for this torrent"
        dialog := Dialog.AddTorrent },
     q, Except.ok none, []⟩

/-! ### Input translator -/

/-- The `crossterm::event::KeyCode` constructors the client matches on
(everything else collapses into `Other`). -/
inductive KeyCode
  | Char (c : Char)
  | Enter
  | Esc
  | Backspace
  | Delete
  | Left
  | Right
  | Up
  | Down
  | Home
  | End
  | Tab
  | BackTab
  | Other
  deriving DecidableEq, Repr

/-- `crossterm::event::KeyEventKind`. -/
inductive KeyEventKind
  | Press
  | Repeat
  | Release
  deriving DecidableEq, Repr

/-- The fields of `crossterm::event::KeyEvent` the client reads. -/
structure KeyEvent where
  code : KeyCode
  kind : KeyEventKind
  deriving DecidableEq, Repr

/-- The `crossterm::event::Event` constructors the client matches on. -/
inductive Event
  | Key (key : KeyEvent)
  | Paste (text : String)
  | Resize
  | Other
  deriving DecidableEq, Repr

/-- The accept/drop filtering on the event kind at the top of
`App::actions_from_key`. -/
def keyAccepted (a : App) (key : KeyEvent) : Bool :=
  match key.kind with
  | KeyEventKind.Repeat =>
    (match key.code with
     | KeyCode.Up => true
     | KeyCode.Down => true
     | KeyCode.Left => true
     | KeyCode.Right => true
     | _ => false)
    || ((a.mode == Mode.EnterMagnet || a.mode == Mode.EnterTorrentDir)
        && match key.code with
           | KeyCode.Char _ => true
           | _ => false)
  | KeyEventKind.Press => true
  | KeyEventKind.Release => false

/-- The dispatch-precedence part of `App::actions_from_key` (everything after
the debounce block; it reads the state but never mutates it). -/
def keyDispatch (a : App) (code : KeyCode) : List Action :=
  if a.show_help then
    match code with
    | KeyCode.Char c =>
      if c = '?' ∨ c = 'x' then [Action.HelpClose]
      else if c = 'k' then [Action.HelpScroll (-1)]
      else if c = 'j' then [Action.HelpScroll 1]
      else []
    | KeyCode.Esc => [Action.HelpClose]
    | KeyCode.Up => [Action.HelpScroll (-1)]
    | KeyCode.Down => [Action.HelpScroll 1]
    | _ => []
  else if a.last_error.isSome then
    match code with
    | KeyCode.Char c => if c = 'x' then [Action.ErrorClear] else []
    | KeyCode.Esc => [Action.ErrorClear]
    | _ => []
  else if a.confirm_delete then
    match code with
    | KeyCode.Left => [Action.ConfirmDeleteSelect true]
    | KeyCode.Right => [Action.ConfirmDeleteSelect false]
    | KeyCode.Char c =>
      if c = 'h' then [Action.ConfirmDeleteSelect true]
      else if c = 'l' then [Action.ConfirmDeleteSelect false]
      else if c = 'y' ∨ c = 'Y' then [Action.ConfirmDeleteSelect true]
      else if c = 'n' ∨ c = 'N' then [Action.ConfirmDeleteSelect false]
      else []
    | KeyCode.Esc => [Action.ConfirmDeleteCancel]
    | KeyCode.Enter => [Action.ConfirmDeleteConfirm]
    | _ => []
  else if a.confirm_quit then
    match code with
    | KeyCode.Left => [Action.ConfirmQuitSelect true]
    | KeyCode.Right => [Action.ConfirmQuitSelect false]
    | KeyCode.Char c =>
      if c = 'h' then [Action.ConfirmQuitSelect true]
      else if c = 'l' then [Action.ConfirmQuitSelect false]
      else if c = 'y' ∨ c = 'Y' then [Action.ConfirmQuitSelect true]
      else if c = 'n' ∨ c = 'N' then [Action.ConfirmQuitSelect false]
      else []
    | KeyCode.Esc => [Action.ConfirmQuitCancel]
    | KeyCode.Enter => [Action.ConfirmQuitConfirm]
    | _ => []
  else if a.mode = Mode.Normal then
    match code with
    | KeyCode.Char c =>
      if c = 'f' then [Action.ViewSet View.Torrents]
      else if c = 'i' then [Action.ViewSet View.Info]
      else if c = 'v' then [Action.ViewSet View.Peers]
      else if c = '\t' then [Action.FocusToggle]
      else if c = '?' then [Action.HelpOpen]
      else if c = 't' then [Action.FocusSet FocusPanel.Torrents]
      else if c = 'g' then [Action.FocusSet FocusPanel.Filters]
      else if c = 'p' then [Action.TogglePause]
      else if c = 'a' then [Action.StartAdd]
      else if c = 'd' then [Action.ConfirmDeleteOpen]
      else if c = 'q' then [Action.ConfirmQuitOpen]
      else if c = '1' then [Action.SetFilter 0]
      else if c = '2' then [Action.SetFilter 1]
      else if c = '3' then [Action.SetFilter 2]
      else if c = '4' then [Action.SetFilter 3]
      else if c = '5' then [Action.SetFilter 4]
      else if c = '6' then [Action.SetFilter 5]
      else if c = 'r' then [Action.Refresh]
      else if c = 'j' then
        match a.focus with
        | FocusPanel.Torrents => [Action.MoveSelection 1]
        | FocusPanel.Filters => [Action.MoveFilter 1]
      else if c = 'k' then
        match a.focus with
        | FocusPanel.Torrents => [Action.MoveSelection (-1)]
        | FocusPanel.Filters => [Action.MoveFilter (-1)]
      else []
    | KeyCode.Tab => [Action.FocusToggle]
    | KeyCode.BackTab => [Action.FocusToggle]
    | KeyCode.Down =>
      match a.focus with
      | FocusPanel.Torrents => [Action.MoveSelection 1]
      | FocusPanel.Filters => [Action.MoveFilter 1]
    | KeyCode.Up =>
      match a.focus with
      | FocusPanel.Torrents => [Action.MoveSelection (-1)]
      | FocusPanel.Filters => [Action.MoveFilter (-1)]
    | _ => []
  else
    match a.mode with
    | Mode.EnterMagnet =>
      match code with
      | KeyCode.Esc => [Action.InputCancel]
      | KeyCode.Enter => [Action.InputEnter]
      | KeyCode.Backspace => [Action.InputBackspace]
      | KeyCode.Delete => [Action.InputDelete]
      | KeyCode.Left => [Action.InputLeft]
      | KeyCode.Right => [Action.InputRight]
      | KeyCode.Home => [Action.InputHome]
      | KeyCode.End => [Action.InputEnd]
      | KeyCode.Char c => [Action.InputChar c]
      | _ => []
    | Mode.EnterTorrentDir =>
      match code with
      | KeyCode.Esc => [Action.InputCancel]
      | KeyCode.Enter => [Action.InputEnter]
      | KeyCode.Backspace => [Action.InputBackspace]
      | KeyCode.Delete => [Action.InputDelete]
      | KeyCode.Left => [Action.InputLeft]
      | KeyCode.Right => [Action.InputRight]
      | KeyCode.Home => [Action.InputHome]
      | KeyCode.End => [Action.InputEnd]
      | KeyCode.Char c => [Action.InputChar c]
      | _ => []
    | Mode.FilePicker =>
      match code with
      | KeyCode.Esc => [Action.FilePickerCancel]
      | KeyCode.Up => [Action.FilePickerUp]
      | KeyCode.Down => [Action.FilePickerDown]
      | KeyCode.Char c =>
        if c = 'k' then [Action.FilePickerUp]
        else if c = 'j' then [Action.FilePickerDown]
        else if c = ' ' then [Action.FilePickerToggle]
        else if c = 'a' then [Action.FilePickerAll]
        else if c = 'n' then [Action.FilePickerNone]
        else []
      | KeyCode.Enter => [Action.FilePickerConfirm]
      | _ => []
    | Mode.Normal => []

/-- `App::actions_from_key` from `input.rs`; `now` is `Instant::now()` in
milliseconds (read inside `should_ignore_paste_char`). -/
def App.actions_from_key (a : App) (key : KeyEvent) (now : Nat) : App × List Action :=
  if !keyAccepted a key then (a, [])
  else if a.mode = Mode.Normal then
    match key.code with
    | KeyCode.Char c =>
      if c = 'h' ∨ c = 'j' ∨ c = 'k' ∨ c = 'l' then (a, keyDispatch a key.code)
      else
        let r := a.should_ignore_paste_char now
        if r.1 then (r.2, []) else (r.2, keyDispatch r.2 key.code)
    | _ =>
      let a1 := { a with last_char_at := none }
      (a1, keyDispatch a1 key.code)
  else (a, keyDispatch a key.code)

/-- `App::actions_from_event` from `input.rs`. -/
def App.actions_from_event (a : App) (ev : Event) (now : Nat) : App × List Action :=
  match ev with
  | Event.Key key => a.actions_from_key key now
  | Event.Paste text => (a, [Action.Paste text])
  | Event.Resize => (a, [])
  | Event.Other => (a, [])

/-! ### The event loop -/

/-- Result of draining the action queue in `App::handle_event`. -/
structure DrainOut where
  app : App
  res : Except String Bool
  calls : List ApiCall
  deriving DecidableEq, Repr

/-- The `while let Some(action) = queue.pop_front()` loop of
`App::handle_event`: apply each action in FIFO order; an error aborts the
drain (the queue is dropped), a quit signal returns immediately, otherwise
the drain ends with `false` when the queue empties.  `fuel` bounds the number
of iterations; every run in this development is given ample fuel. -/
def drain (env : Env) (now : Nat) : Nat → App → List Action → DrainOut
  | _, a, [] => ⟨a, Except.ok false, []⟩
  | 0, a, _ :: _ => ⟨a, Except.ok false, []⟩
  | fuel + 1, a, act :: rest =>
    let s := a.apply_action env now act rest
    match s.res with
    | Except.error e => ⟨s.app, Except.error e, s.calls⟩
    | Except.ok (some quit) => ⟨s.app, Except.ok quit, s.calls⟩
    | Except.ok none =>
      let d := drain env now fuel s.app s.queue
      ⟨d.app, d.res, s.calls ++ d.calls⟩

/-- `App::handle_event` from `reducer.rs`. -/
def App.handle_event (a : App) (env : Env) (ev : Event) (now : Nat) (fuel : Nat) : DrainOut :=
  let r := a.actions_from_event ev now
  drain env now fuel r.1 r.2

/-- The event arm of the main loop in `main.rs`: a drain error is funneled
into `App::set_error`. -/
def DrainOut.settle (d : DrainOut) : App :=
  match d.res with
  | Except.error e => d.app.set_error e
  | Except.ok _ => d.app

/-! ### Shared helpers for the verification -/

/-- A stub engine/filesystem oracle for concrete runs. -/
def stubEnv : Env where
  addTorrent := fun _ _ _ => Except.error ("stub")
  torrentDetails := fun _ => Except.error ("stub")
  actionStart := fun _ => Except.ok ()
  actionPause := fun _ => Except.ok ()
  actionForget := fun _ => Except.ok ()
  actionDelete := fun _ => Except.ok ()
  listTorrents := fun _ => []
  pathExists := fun _ => false
  readFile := fun _ => Except.error ("stub")
  createDir := fun _ => Except.ok ()

@[simp] theorem withContext_ok (msg : String) (v : α) :
    withContext msg (Except.ok v) = Except.ok v := rfl

@[simp] theorem withContext_error (msg e : String) :
    withContext msg (Except.error e : Except String α) =
      Except.error (msg ++ ": " ++ e) := rfl

theorem withContext_eq_ok {msg : String} {x : Except String α} {v : α}
    (h : x = Except.ok v) : withContext msg x = Except.ok v := by
  subst h; rfl

/-! ### C3: the `set_error` funnel -/

/-- C3 counterexample: `set_error` does *not* collapse the two confirmation
*choice* flags (`delete_choice`, `quit_choice`); from a state with both set,
they survive the error funnel, contradicting the claim that every modal and
transient field including "both confirmation choice flags" is collapsed. -/
theorem set_error_choice_flags_counterexample :
    (App.set_error { App.new "/dl" with delete_choice := true, quit_choice := true }
        "boom").delete_choice = true
    ∧ (App.set_error { App.new "/dl" with delete_choice := true, quit_choice := true }
        "boom").quit_choice = true := ⟨rfl, rfl⟩

/-- C3 (amended): for every application state and error value, `set_error`
collapses the dialog tag, the two dialog-open flags (`confirm_delete`,
`confirm_quit`), the pending wizard state (`pending_add_input` and
`file_picker`), the input buffer and cursor, the help overlay and its scroll
offset, and the debounce timestamp, resets the mode to Normal and raises the
Error dialog; the yes/no choice flags (`delete_choice`, `quit_choice`) are
left as they were.  A subsequent `clear_error` leaves the system in Normal
mode with no residual wizard state. -/
theorem set_error_funnel_amended (s : App) (err : String) :
    (s.set_error err).dialog = Dialog.Error
    ∧ (s.set_error err).last_error = some err
    ∧ (s.set_error err).status = "Error"
    ∧ (s.set_error err).mode = Mode.Normal
    ∧ (s.set_error err).file_picker = none
    ∧ (s.set_error err).pending_add_input = none
    ∧ (s.set_error err).confirm_delete = false
    ∧ (s.set_error err).confirm_quit = false
    ∧ (s.set_error err).show_help = false
    ∧ (s.set_error err).help_scroll = 0
    ∧ (s.set_error err).input = []
    ∧ (s.set_error err).input_cursor = 0
    ∧ (s.set_error err).last_char_at = none
    ∧ (s.set_error err).delete_choice = s.delete_choice
    ∧ (s.set_error err).quit_choice = s.quit_choice
    ∧ ((s.set_error err).clear_error.mode = Mode.Normal
       ∧ (s.set_error err).clear_error.dialog = Dialog.None
       ∧ (s.set_error err).clear_error.last_error = none
       ∧ (s.set_error err).clear_error.pending_add_input = none
       ∧ (s.set_error err).clear_error.file_picker = none
       ∧ (s.set_error err).clear_error.input = []
       ∧ (s.set_error err).clear_error.input_cursor = 0) := by
  refine ⟨rfl, rfl, rfl, rfl, rfl, rfl, rfl, rfl, rfl, rfl, rfl, rfl, rfl, rfl, rfl,
    rfl, rfl, rfl, rfl, rfl, rfl, rfl⟩

/-! ### C4: the filter/selection invariant -/

theorem findMatch_none_spec (a : App) :
    ∀ (l : List TorrentRow) (i : Nat), findMatch a i l = none →
      ∀ t ∈ l, a.filter_match t = false := by
  intro l
  induction l with
  | nil => intro i _ t ht; cases ht
  | cons x rest ih =>
    intro i h t ht
    rw [findMatch] at h
    by_cases hm : a.filter_match x
    · simp [hm] at h
    · simp [hm] at h
      rcases List.mem_cons.mp ht with rfl | ht
      · simpa using hm
      · exact ih (i + 1) h t ht

theorem findMatch_some_spec (a : App) :
    ∀ (l : List TorrentRow) (i j : Nat), findMatch a i l = some j →
      i ≤ j ∧ j - i < l.length ∧ a.filter_match (l.getD (j - i) dummyRow) = true := by
  intro l
  induction l with
  | nil => intro i j h; simp [findMatch] at h
  | cons x rest ih =>
    intro i j h
    rw [findMatch] at h
    by_cases hm : a.filter_match x
    · simp [hm] at h
      subst h
      refine ⟨le_refl i, by simp, ?_⟩
      simpa using hm
    · simp [hm] at h
      obtain ⟨h1, h2, h3⟩ := ih (i + 1) j h
      refine ⟨by omega, by simp; omega, ?_⟩
      have hji : j - i = (j - (i + 1)) + 1 := by omega
      rw [hji]
      simpa using h3

/-- C4: for every non-empty torrent cache and any filter, after
`ensure_selection_for_filter` either the selected index is in bounds and the
row there satisfies the active filter predicate, or no row satisfies the
filter and the selected index is 0. -/
theorem ensure_selection_filter_invariant (a : App) (h : a.torrents ≠ []) :
    (a.ensure_selection_for_filter.selected < a.torrents.length
      ∧ a.filter_match (a.torrents.getD a.ensure_selection_for_filter.selected dummyRow) = true)
    ∨ ((∀ t ∈ a.torrents, a.filter_match t = false)
      ∧ a.ensure_selection_for_filter.selected = 0) := by
  have hne : a.torrents.isEmpty = false := by
    simpa [List.isEmpty_iff] using h
  by_cases hsel : (decide (a.selected < a.torrents.length)
      && a.filter_match (a.torrents.getD a.selected dummyRow)) = true
  · have he : a.ensure_selection_for_filter = a := by
      rw [App.ensure_selection_for_filter, if_neg (by simp [hne]), if_pos hsel]
    rw [he]
    left
    obtain ⟨h1, h2⟩ := (Bool.and_eq_true _ _).mp hsel
    exact ⟨of_decide_eq_true h1, h2⟩
  · cases hf : findMatch a 0 a.torrents with
    | some idx =>
      have he : a.ensure_selection_for_filter = { a with selected := idx } := by
        rw [App.ensure_selection_for_filter, if_neg (by simp [hne]), if_neg hsel, hf]
      rw [he]
      left
      obtain ⟨_, h2, h3⟩ := findMatch_some_spec a a.torrents 0 idx hf
      rw [Nat.sub_zero] at h2 h3
      exact ⟨h2, h3⟩
    | none =>
      right
      have he : a.ensure_selection_for_filter = { a with selected := 0 } := by
        rw [App.ensure_selection_for_filter, if_neg (by simp [hne]), if_neg hsel, hf]
      rw [he]
      exact ⟨findMatch_none_spec a a.torrents 0 hf, rfl⟩

/-! #### Frame lemmas: which fields each operation can touch -/

theorem ensure_selection_shape (a : App) :
    ∃ n, a.ensure_selection_for_filter = { a with selected := n } := by
  rw [App.ensure_selection_for_filter]
  split
  · exact ⟨0, rfl⟩
  · split
    · exact ⟨a.selected, rfl⟩
    · split
      · exact ⟨_, rfl⟩
      · exact ⟨0, rfl⟩

theorem move_selection_shape (a : App) (delta : Int) :
    ∃ n, a.move_selection delta = { a with selected := n } := by
  rw [App.move_selection]
  split
  · exact ⟨a.selected, rfl⟩
  · exact ⟨_, rfl⟩

theorem refresh_text (a : App) (env : Env) :
    (a.refresh env).1.input = a.input
    ∧ (a.refresh env).1.input_cursor = a.input_cursor
    ∧ (a.refresh env).1.pending_add_input = a.pending_add_input
    ∧ (a.refresh env).1.mode = a.mode := by
  have base : ∀ x : App, x.ensure_selection_for_filter.input = x.input
      ∧ x.ensure_selection_for_filter.input_cursor = x.input_cursor
      ∧ x.ensure_selection_for_filter.pending_add_input = x.pending_add_input
      ∧ x.ensure_selection_for_filter.mode = x.mode := by
    intro x
    obtain ⟨n, h⟩ := ensure_selection_shape x
    rw [h]
    exact ⟨rfl, rfl, rfl, rfl⟩
  rw [App.refresh]
  dsimp only
  repeat' split
  all_goals
    exact ⟨(base _).1, (base _).2.1, (base _).2.2.1, (base _).2.2.2⟩

theorem start_download_shape (a : App) (env : Env) (m f : String) (of : List Nat) :
    ∃ st, (App.start_download a env m f of).app = { a with status := st } := by
  rw [App.start_download]
  dsimp only
  repeat' split
  all_goals exact ⟨_, rfl⟩

theorem toggle_pause_shape (a : App) (env : Env) :
    ∃ st, (a.toggle_pause env).app = { a with status := st } := by
  rw [App.toggle_pause]
  repeat' split
  all_goals exact ⟨_, rfl⟩

theorem stop_selected_shape (a : App) (env : Env) :
    ∃ st, (a.stop_selected env).app = { a with status := st } := by
  rw [App.stop_selected]
  repeat' split
  all_goals exact ⟨_, rfl⟩

theorem delete_selected_shape (a : App) (env : Env) :
    ∃ st, (a.delete_selected_files env).app = { a with status := st } := by
  rw [App.delete_selected_files]
  repeat' split
  all_goals exact ⟨_, rfl⟩

theorem start_file_picker_shape (a : App) (env : Env) (m f : String) :
    ∃ st fp md dg, (App.start_file_picker_with_dir a env m f).app =
      { a with mode := md, status := st, file_picker := fp, dialog := dg } := by
  unfold App.start_file_picker_with_dir
  rcases hp : probe_go env m f 0 3 with ⟨r, c⟩
  cases r with
  | error e => exact ⟨_, _, _, _, rfl⟩
  | ok response =>
    dsimp only
    repeat' split
    all_goals exact ⟨_, _, _, _, rfl⟩

/-- No effect ever touches the input buffer, the cursor, or the pending
wizard carrier. -/
theorem run_effect_text (a : App) (env : Env) (e : Effect) :
    (a.run_effect env e).app.input = a.input
    ∧ (a.run_effect env e).app.input_cursor = a.input_cursor
    ∧ (a.run_effect env e).app.pending_add_input = a.pending_add_input := by
  cases e with
  | Refresh =>
    have h := refresh_text a env
    simp only [App.run_effect]
    exact ⟨h.1, h.2.1, h.2.2.1⟩
  | TogglePause =>
    obtain ⟨st, h⟩ := toggle_pause_shape a env
    simp [App.run_effect, EffResult.toOut, h]
  | StopSelected =>
    obtain ⟨st, h⟩ := stop_selected_shape a env
    simp [App.run_effect, EffResult.toOut, h]
  | DeleteSelectedFiles =>
    obtain ⟨st, h⟩ := delete_selected_shape a env
    simp [App.run_effect, EffResult.toOut, h]
  | PreflightAdd m =>
    simp [App.run_effect]
  | StartFilePicker m f =>
    obtain ⟨st, fp, md, dg, h⟩ := start_file_picker_shape a env m f
    simp [App.run_effect, EffResult.toOut, h]
  | StartDownload m f of =>
    obtain ⟨st, h⟩ :=
      start_download_shape { a with status := "Starting download...", last_error := none }
        env m f of
    simp only [App.run_effect]
    split
    · rw [h]; exact ⟨rfl, rfl, rfl⟩
    · rw [h]; exact ⟨rfl, rfl, rfl⟩

/-- C4 witness: a single unfiltered torrent is kept selected. -/
theorem ensure_selection_filter_invariant_witness :
    let a : App := { App.new "/dl" with torrents := [dummyRow] }
    ((a.ensure_selection_for_filter.selected < a.torrents.length
      ∧ a.filter_match (a.torrents.getD a.ensure_selection_for_filter.selected dummyRow) = true)
    ∨ ((∀ t ∈ a.torrents, a.filter_match t = false)
      ∧ a.ensure_selection_for_filter.selected = 0)) :=
  ensure_selection_filter_invariant _ (by decide)

/-! ### C10: cursor stays on character boundaries -/

@[simp] theorem inputEnterFinish_input (x : App) : (inputEnterFinish x).input = x.input := by
  rw [inputEnterFinish]; split <;> rfl

@[simp] theorem inputEnterFinish_cursor (x : App) :
    (inputEnterFinish x).input_cursor = x.input_cursor := by
  rw [inputEnterFinish]; split <;> rfl

@[simp] theorem set_error_input (s : App) (e : String) : (s.set_error e).input = [] := rfl

@[simp] theorem set_error_cursor (s : App) (e : String) : (s.set_error e).input_cursor = 0 := rfl

theorem utf8Len_take_le (l : List Char) (k : Nat) : utf8Len (l.take k) ≤ utf8Len l := by
  unfold utf8Len
  conv_rhs => rw [← List.take_append_drop k l]
  rw [List.map_append, List.sum_append]
  exact Nat.le_add_right _ _

theorem ctbiAux_spec (cursor : Nat) : ∀ (l : List Char) (count acc : Nat),
    ∃ k, k ≤ l.length ∧ ctbiAux l cursor count acc = acc + utf8Len (l.take k) := by
  intro l
  induction l with
  | nil =>
    intro count acc
    exact ⟨0, by simp, by simp [ctbiAux, utf8Len]⟩
  | cons ch rest ih =>
    intro count acc
    rw [ctbiAux]
    by_cases h : count = cursor
    · exact ⟨0, by simp, by simp [h, utf8Len]⟩
    · obtain ⟨k, hk, he⟩ := ih (count + 1) (acc + utf8Size ch)
      refine ⟨k + 1, by simpa using hk, ?_⟩
      rw [if_neg h, he]
      simp [utf8Len]
      omega

/-- `cursor_to_byte_index` always lands on a character boundary: it is the
UTF-8 length of some prefix of the buffer. -/
theorem cursor_to_byte_boundary (l : List Char) (c : Nat) :
    ∃ k, k ≤ l.length ∧ cursor_to_byte_index l c = utf8Len (l.take k) := by
  rw [cursor_to_byte_index]
  by_cases h : c = 0
  · exact ⟨0, by simp, by simp [h, utf8Len]⟩
  · obtain ⟨k, hk, he⟩ := ctbiAux_spec c l 0 0
    exact ⟨k, hk, by simp [h, he]⟩

/-- Preservation of `input_cursor ≤ input.length` by every action. -/
theorem apply_action_cursor (s : App) (env : Env) (now : Nat) (act : Action)
    (q : List Action) (h : s.input_cursor ≤ s.input.length) :
    (s.apply_action env now act q).app.input_cursor
      ≤ (s.apply_action env now act q).app.input.length := by
  cases act with
  | Paste text =>
    simp only [App.apply_action]
    split
    · exact Nat.le_refl _
    · exact h
  | HelpScroll delta =>
    simp only [App.apply_action]
    split <;> exact h
  | ConfirmDeleteOpen =>
    simp only [App.apply_action]
    split <;> exact h
  | ConfirmDeleteConfirm =>
    simp only [App.apply_action]
    split <;> exact h
  | ConfirmQuitConfirm =>
    simp only [App.apply_action]
    split <;> exact h
  | MoveSelection delta =>
    obtain ⟨n, hs⟩ := move_selection_shape s delta
    simp only [App.apply_action, hs]
    exact h
  | MoveFilter delta =>
    simp only [App.apply_action]
    split
    all_goals
      obtain ⟨n, hs⟩ := ensure_selection_shape _
      rw [hs]
      exact h
  | SetFilter index =>
    simp only [App.apply_action]
    obtain ⟨n, hs⟩ := ensure_selection_shape _
    rw [hs]
    exact h
  | InputChar c =>
    simp only [App.apply_action, App.insert_char]
    simp only [List.length_append, List.length_take, List.length_drop, List.length_cons,
      List.length_nil]
    omega
  | InputBackspace =>
    simp only [App.apply_action, App.backspace]
    split
    · exact h
    · simp only [List.length_append, List.length_take, List.length_drop]
      omega
  | InputDelete =>
    simp only [App.apply_action, App.delete]
    split
    · exact h
    · simp only [List.length_append, List.length_take, List.length_drop]
      omega
  | InputLeft =>
    simp only [App.apply_action, App.move_cursor_left]
    omega
  | InputRight =>
    simp only [App.apply_action, App.move_cursor_right]
    exact Nat.min_le_right _ _
  | InputEnter =>
    rw [App.apply_action]
    repeat' split
    all_goals simp
  | InputCancel =>
    rw [App.apply_action]
    repeat' split
    all_goals simp
  | FilePickerUp =>
    simp only [App.apply_action]
    repeat' split
    all_goals exact h
  | FilePickerDown =>
    simp only [App.apply_action]
    repeat' split
    all_goals exact h
  | FilePickerToggle =>
    simp only [App.apply_action]
    repeat' split
    all_goals exact h
  | FilePickerAll =>
    simp only [App.apply_action]
    repeat' split
    all_goals exact h
  | FilePickerNone =>
    simp only [App.apply_action]
    repeat' split
    all_goals exact h
  | FilePickerConfirm =>
    simp only [App.apply_action]
    repeat' split
    all_goals exact h
  | RunEffect e =>
    obtain ⟨h1, h2, _⟩ := run_effect_text s env e
    simp only [App.apply_action]
    split
    · rw [h1, h2] at *
      exact h
    · rw [h1, h2] at *
      exact h
  | PreflightAddResult m =>
    simp only [App.apply_action]
    exact Nat.le_refl _
  | _ =>
    simp only [App.apply_action]
    first
      | exact h
      | exact Nat.le_refl _
      | exact Nat.zero_le _

/-- C10: the input cursor never exceeds the character count of the buffer
(the bound is preserved by every action of the reducer), and the
cursor-to-byte-index conversion always yields a character-boundary offset
inside or at the end of the buffer. -/
theorem cursor_invariant (s : App) (env : Env) (now : Nat) (act : Action)
    (q : List Action) (h : s.input_cursor ≤ s.input.length) :
    ((s.apply_action env now act q).app.input_cursor
        ≤ (s.apply_action env now act q).app.input.length)
    ∧ (∀ (l : List Char) (c : Nat),
        (∃ k, k ≤ l.length ∧ cursor_to_byte_index l c = utf8Len (l.take k))
        ∧ cursor_to_byte_index l c ≤ utf8Len l) := by
  refine ⟨apply_action_cursor s env now act q h, fun l c => ⟨cursor_to_byte_boundary l c, ?_⟩⟩
  obtain ⟨k, _, he⟩ := cursor_to_byte_boundary l c
  rw [he]
  exact utf8Len_take_le l k

/-- C10 witness. -/
theorem cursor_invariant_witness :
    (((App.new "/dl").apply_action stubEnv 0 (Action.InputChar 'a') []).app.input_cursor
        ≤ ((App.new "/dl").apply_action stubEnv 0 (Action.InputChar 'a') []).app.input.length)
    ∧ (∀ (l : List Char) (c : Nat),
        (∃ k, k ≤ l.length ∧ cursor_to_byte_index l c = utf8Len (l.take k))
        ∧ cursor_to_byte_index l c ≤ utf8Len l) :=
  cursor_invariant (App.new "/dl") stubEnv 0 (Action.InputChar 'a') [] (by decide)

/-! ### C8: native paste routing -/

/-- C8 counterexample: applying a paste in a text-entry mode *replaces* the
buffer rather than inserting into it — pasting "xyz" over buffer "abc"
yields "xyz" (length 3), not a 6-character buffer containing the old text,
refuting the claim that the action's application "inserts T into the input
buffer". -/
theorem paste_insert_counterexample :
    (({ App.new "/dl" with
        mode := Mode.EnterMagnet
        dialog := Dialog.AddTorrent
        input := "abc".data
        input_cursor := 3 } : App).apply_action stubEnv 0
          (Action.Paste "xyz") []).app.input = "xyz".data
    ∧ (({ App.new "/dl" with
        mode := Mode.EnterMagnet
        dialog := Dialog.AddTorrent
        input := "abc".data
        input_cursor := 3 } : App).apply_action stubEnv 0
          (Action.Paste "xyz") []).app.input.length ≠ "abc".data.length + "xyz".data.length :=
  ⟨rfl, by decide⟩

/-- C8 (amended): a native paste event is always routed verbatim as the
single bulk action `Paste text`; applying it while the mode is a text-entry
mode replaces the input buffer with the pasted text and puts the cursor at
its end, and in any other mode it leaves the buffer untouched, sets the
status note "Paste ignored" and refreshes the debounce timestamp. -/
theorem paste_routing_amended (s : App) (text : String) (env : Env) (now : Nat)
    (q : List Action) :
    s.actions_from_event (Event.Paste text) now = (s, [Action.Paste text])
    ∧ (s.apply_action env now (Action.Paste text) q).queue = q
    ∧ (s.apply_action env now (Action.Paste text) q).res = Except.ok none
    ∧ (s.apply_action env now (Action.Paste text) q).app =
        (if s.mode = Mode.EnterMagnet ∨ s.mode = Mode.EnterTorrentDir then
          { s with input := text.data, input_cursor := text.data.length }
        else
          { s with last_char_at := some now, status := "Paste ignored" }) := by
  refine ⟨rfl, ?_⟩
  rw [App.apply_action]
  split
  · exact ⟨rfl, rfl, rfl⟩
  · exact ⟨rfl, rfl, rfl⟩

/-! ### C9: FilePicker confirm -/

/-- A concrete file-picker staging state with files 0 and 2 included. -/
def c9picker : FilePickerState where
  magnet := "m"
  output_folder := "/dl/X"
  files := [{ name := "a", length := 1, included := true },
            { name := "b", length := 1, included := false },
            { name := "c", length := 1, included := true }]
  cursor := 0

/-- C9 counterexample: applying `FilePickerConfirm` itself does *not* close
the picker — mode and dialog stay `FilePicker` and the staging state is
still present; only the `StartDownload` effect request is enqueued. -/
theorem file_picker_confirm_counterexample :
    (({ App.new "/dl" with
        mode := Mode.FilePicker
        dialog := Dialog.FilePicker
        file_picker := some c9picker } : App).apply_action stubEnv 0
          Action.FilePickerConfirm []).app.mode = Mode.FilePicker
    ∧ (({ App.new "/dl" with
        mode := Mode.FilePicker
        dialog := Dialog.FilePicker
        file_picker := some c9picker } : App).apply_action stubEnv 0
          Action.FilePickerConfirm []).app.dialog = Dialog.FilePicker
    ∧ (({ App.new "/dl" with
        mode := Mode.FilePicker
        dialog := Dialog.FilePicker
        file_picker := some c9picker } : App).apply_action stubEnv 0
          Action.FilePickerConfirm []).app.file_picker = some c9picker
    ∧ (({ App.new "/dl" with
        mode := Mode.FilePicker
        dialog := Dialog.FilePicker
        file_picker := some c9picker } : App).apply_action stubEnv 0
          Action.FilePickerConfirm []).queue =
        [Action.RunEffect (Effect.StartDownload "m" "/dl/X" [0, 2])] := by
  refine ⟨rfl, rfl, rfl, ?_⟩
  decide

/-- C9 (amended): applying `FilePickerConfirm` snapshots the included file
indices and enqueues exactly one `StartDownload` effect request carrying
them, leaving the state (mode, dialog, staging area) unchanged; the File
Picker mode/dialog/staging are closed by the `StartDownload` effect itself
when (and only when) it succeeds. -/
theorem file_picker_confirm_amended (s : App) (env : Env) (now : Nat)
    (q : List Action) (picker : FilePickerState) (hp : s.file_picker = some picker) :
    ((s.apply_action env now Action.FilePickerConfirm q).app = s
      ∧ (s.apply_action env now Action.FilePickerConfirm q).queue =
          q ++ [Action.RunEffect (Effect.StartDownload picker.magnet picker.output_folder
            (enumIncluded (fun f => f.included) 0 picker.files))]
      ∧ (s.apply_action env now Action.FilePickerConfirm q).res = Except.ok none)
    ∧ (∀ (a : App) (m f : String) (of : List Nat) (acts : List Action),
        (a.run_effect env (Effect.StartDownload m f of)).res = Except.ok acts →
        (a.run_effect env (Effect.StartDownload m f of)).app.mode = Mode.Normal
        ∧ (a.run_effect env (Effect.StartDownload m f of)).app.dialog = Dialog.None
        ∧ (a.run_effect env (Effect.StartDownload m f of)).app.file_picker = none) := by
  constructor
  · rw [App.apply_action, hp]
    exact ⟨rfl, rfl, rfl⟩
  · intro a m f of acts hres
    simp only [App.run_effect] at hres ⊢
    split at hres
    · cases hres
    · exact ⟨rfl, rfl, rfl⟩

/-- C9 witness. -/
theorem file_picker_confirm_amended_witness :
    ((({ App.new "/dl" with file_picker := some c9picker } : App).apply_action stubEnv 0
        Action.FilePickerConfirm []).app = { App.new "/dl" with file_picker := some c9picker }
      ∧ (({ App.new "/dl" with file_picker := some c9picker } : App).apply_action stubEnv 0
          Action.FilePickerConfirm []).queue =
          [] ++ [Action.RunEffect (Effect.StartDownload c9picker.magnet c9picker.output_folder
            (enumIncluded (fun f => f.included) 0 c9picker.files))]
      ∧ (({ App.new "/dl" with file_picker := some c9picker } : App).apply_action stubEnv 0
          Action.FilePickerConfirm []).res = Except.ok none)
    ∧ (∀ (a : App) (m f : String) (of : List Nat) (acts : List Action),
        (a.run_effect stubEnv (Effect.StartDownload m f of)).res = Except.ok acts →
        (a.run_effect stubEnv (Effect.StartDownload m f of)).app.mode = Mode.Normal
        ∧ (a.run_effect stubEnv (Effect.StartDownload m f of)).app.dialog = Dialog.None
        ∧ (a.run_effect stubEnv (Effect.StartDownload m f of)).app.file_picker = none) :=
  file_picker_confirm_amended { App.new "/dl" with file_picker := some c9picker }
    stubEnv 0 [] c9picker rfl

/-! ### C5: paste-vs-typing debounce -/

/-- C5 counterexample: for the navigation character key j the debounce never
fires — two presses of j 50 ms apart in Normal mode are *both* accepted
(each yields a MoveSelection action) and no "Paste ignored" status note is
set, contradicting the claim quantified over *any* character key code. -/
theorem debounce_nav_counterexample :
    ((App.new "/dl").actions_from_key ⟨KeyCode.Char 'j', KeyEventKind.Press⟩ 1000).2
      = [Action.MoveSelection 1]
    ∧ ((((App.new "/dl").actions_from_key ⟨KeyCode.Char 'j', KeyEventKind.Press⟩ 1000).1).actions_from_key
        ⟨KeyCode.Char 'j', KeyEventKind.Press⟩ 1050).2 = [Action.MoveSelection 1]
    ∧ ((((App.new "/dl").actions_from_key ⟨KeyCode.Char 'j', KeyEventKind.Press⟩ 1000).1).actions_from_key
        ⟨KeyCode.Char 'j', KeyEventKind.Press⟩ 1050).1.status = "Ready" := by
  decide

/-- C5 (amended): in Normal mode with no dialog open, for
*non-navigation* character keys (code not in h/j/k/l): a first press with no
recent timestamp is accepted and refreshes the timestamp; a second press of
the same code at most 200 ms later is dropped as paste noise with the status
note "Paste ignored" and a refreshed timestamp, while a second press more
than 200 ms later is accepted; a non-character key resets the timestamp to
no-recent-key. -/
theorem debounce_amended (s : App) (c : Char) (k : KeyCode) (t1 t2 : Nat)
    (hmode : s.mode = Mode.Normal) (hdialog : s.dialog = Dialog.None)
    (hlast : s.last_char_at = none)
    (hnav : ¬(c = 'h' ∨ c = 'j' ∨ c = 'k' ∨ c = 'l'))
    (ht : t1 ≤ t2) :
    ((s.actions_from_key ⟨KeyCode.Char c, KeyEventKind.Press⟩ t1).1
        = { s with last_char_at := some t1 }
      ∧ (s.actions_from_key ⟨KeyCode.Char c, KeyEventKind.Press⟩ t1).2
        = keyDispatch { s with last_char_at := some t1 } (KeyCode.Char c))
    ∧ (t2 - t1 ≤ 200 →
        (((s.actions_from_key ⟨KeyCode.Char c, KeyEventKind.Press⟩ t1).1.actions_from_key
            ⟨KeyCode.Char c, KeyEventKind.Press⟩ t2).2 = []
        ∧ ((s.actions_from_key ⟨KeyCode.Char c, KeyEventKind.Press⟩ t1).1.actions_from_key
            ⟨KeyCode.Char c, KeyEventKind.Press⟩ t2).1.status = "Paste ignored"
        ∧ ((s.actions_from_key ⟨KeyCode.Char c, KeyEventKind.Press⟩ t1).1.actions_from_key
            ⟨KeyCode.Char c, KeyEventKind.Press⟩ t2).1.last_char_at = some t2))
    ∧ (200 < t2 - t1 →
        (((s.actions_from_key ⟨KeyCode.Char c, KeyEventKind.Press⟩ t1).1.actions_from_key
            ⟨KeyCode.Char c, KeyEventKind.Press⟩ t2).1
          = { s with last_char_at := some t2 }
        ∧ ((s.actions_from_key ⟨KeyCode.Char c, KeyEventKind.Press⟩ t1).1.actions_from_key
            ⟨KeyCode.Char c, KeyEventKind.Press⟩ t2).2
          = keyDispatch { s with last_char_at := some t2 } (KeyCode.Char c)))
    ∧ ((∀ ch, k ≠ KeyCode.Char ch) →
        (s.actions_from_key ⟨k, KeyEventKind.Press⟩ t1).1.last_char_at = none) := by
  have e1 : s.actions_from_key ⟨KeyCode.Char c, KeyEventKind.Press⟩ t1
      = ({ s with last_char_at := some t1 },
         keyDispatch { s with last_char_at := some t1 } (KeyCode.Char c)) := by
    have hsi : s.should_ignore_paste_char t1 = (false, { s with last_char_at := some t1 }) := by
      rw [App.should_ignore_paste_char, if_neg (by simp [hdialog]), hlast]
    rw [App.actions_from_key, if_neg (by simp [keyAccepted]), if_pos hmode]
    dsimp only
    rw [if_neg hnav, hsi]
    rfl
  refine ⟨⟨by rw [e1], by rw [e1]⟩, ?_, ?_, ?_⟩
  · intro hle
    have hsi2 : ({ s with last_char_at := some t1 } : App).should_ignore_paste_char t2
        = (true, { s with last_char_at := some t2, status := "Paste ignored" }) := by
      rw [App.should_ignore_paste_char]
      rw [if_neg (by simp [hdialog])]
      simp only []
      rw [if_pos hle]
    rw [e1]
    rw [App.actions_from_key, if_neg (by simp [keyAccepted]),
      if_pos (show ({ s with last_char_at := some t1 } : App).mode = Mode.Normal from hmode)]
    dsimp only
    rw [if_neg hnav, hsi2]
    exact ⟨rfl, rfl, rfl⟩
  · intro hgt
    have hsi2 : ({ s with last_char_at := some t1 } : App).should_ignore_paste_char t2
        = (false, { s with last_char_at := some t2 }) := by
      rw [App.should_ignore_paste_char]
      rw [if_neg (by simp [hdialog])]
      simp only []
      rw [if_neg (by omega)]
    rw [e1]
    rw [App.actions_from_key, if_neg (by simp [keyAccepted]),
      if_pos (show ({ s with last_char_at := some t1 } : App).mode = Mode.Normal from hmode)]
    dsimp only
    rw [if_neg hnav, hsi2]
    exact ⟨rfl, rfl⟩
  · intro hk
    rw [App.actions_from_key, if_neg (by simp [keyAccepted]), if_pos hmode]
    cases k with
    | Char ch => exact absurd rfl (hk ch)
    | Enter => rfl
    | Esc => rfl
    | Backspace => rfl
    | Delete => rfl
    | Left => rfl
    | Right => rfl
    | Up => rfl
    | Down => rfl
    | Home => rfl
    | End => rfl
    | Tab => rfl
    | BackTab => rfl
    | Other => rfl

/-- C5 witness: two r presses 50 ms apart — the second is suppressed. -/
theorem debounce_amended_witness :
    (((App.new "/dl").actions_from_key ⟨KeyCode.Char 'r', KeyEventKind.Press⟩ 1000).1.actions_from_key
        ⟨KeyCode.Char 'r', KeyEventKind.Press⟩ 1050).2 = []
    ∧ (((App.new "/dl").actions_from_key ⟨KeyCode.Char 'r', KeyEventKind.Press⟩ 1000).1.actions_from_key
        ⟨KeyCode.Char 'r', KeyEventKind.Press⟩ 1050).1.status = "Paste ignored" := by
  have h := debounce_amended (App.new "/dl") 'r' KeyCode.Enter 1000 1050 rfl rfl rfl
    (by decide) (by decide)
  obtain ⟨-, h2, -, -⟩ := h
  obtain ⟨ha, hb, -⟩ := h2 (by decide)
  exact ⟨ha, hb⟩

/-! ### C1: commit-then-verify file selection -/

/-- C1: for every `StartDownload` run with a non-empty requested index set
whose engine calls succeed up to reading back the torrent details: the add
is performed exactly once with `paused := true` and the requested inclusion
set; the on-engine inclusion set is re-read; if the confirmed set differs
from the requested set the just-added torrent is deleted, no start call is
made, the error "File selection was not honored; torrent was removed" is
returned and the torrent cache is untouched; only when the sets are equal is
the torrent started, and the effect reports success when the start call
succeeds. -/
theorem start_download_selection_verified
    (a : App) (env : Env) (magnet folder : String) (only_files : List Nat)
    (add : AddTorrent) (resp : ApiAddTorrentResponse) (id : Nat)
    (det : TorrentDetailsResponse) (files : List TorrentFileDetails)
    (hne : only_files ≠ [])
    (hbuild : build_add_torrent env magnet = Except.ok add)
    (hadd : env.addTorrent 0 add
      { AddTorrentOptions.default with
        paused := true
        only_files := some only_files
        output_folder := some folder
        overwrite := true } = Except.ok resp)
    (hid : resp.id = some id)
    (hdet : env.torrentDetails id = Except.ok det)
    (hfiles : det.files = some files) :
    (ApiCall.addTorrent add
      { AddTorrentOptions.default with
        paused := true
        only_files := some only_files
        output_folder := some folder
        overwrite := true } ∈ (App.start_download a env magnet folder only_files).calls
      ∧ ({ AddTorrentOptions.default with
        paused := true
        only_files := some only_files
        output_folder := some folder
        overwrite := true } : AddTorrentOptions).paused = true)
    ∧ ApiCall.torrentDetails id ∈ (App.start_download a env magnet folder only_files).calls
    ∧ ((enumIncluded (fun f => f.included) 0 files).toFinset ≠ only_files.toFinset →
        (App.start_download a env magnet folder only_files).res
          = Except.error "File selection was not honored; torrent was removed"
        ∧ ApiCall.actionDelete id ∈ (App.start_download a env magnet folder only_files).calls
        ∧ (∀ j, ApiCall.actionStart j ∉ (App.start_download a env magnet folder only_files).calls)
        ∧ (App.start_download a env magnet folder only_files).app.torrents = a.torrents)
    ∧ ((enumIncluded (fun f => f.included) 0 files).toFinset = only_files.toFinset →
        ApiCall.actionStart id ∈ (App.start_download a env magnet folder only_files).calls
        ∧ (∀ j, ApiCall.actionDelete j ∉ (App.start_download a env magnet folder only_files).calls)
        ∧ (env.actionStart id = Except.ok () →
            (App.start_download a env magnet folder only_files).res = Except.ok ()
            ∧ (App.start_download a env magnet folder only_files).app.status = "Torrent added")) := by
  have hie : only_files.isEmpty = false := by
    simpa [List.isEmpty_iff] using hne
  rw [App.start_download, if_neg (by simp [hie])]
  dsimp only
  rw [hbuild]
  dsimp only
  rw [hadd, withContext_ok]
  dsimp only
  rw [hid]
  dsimp only
  rw [hdet, withContext_ok]
  dsimp only
  rw [hfiles]
  dsimp only
  by_cases hm : (enumIncluded (fun f => f.included) 0 files).toFinset = only_files.toFinset
  · rw [if_neg (not_not_intro hm)]
    cases hstart : env.actionStart id with
    | ok u =>
      cases u
      rw [withContext_ok]
      dsimp only
      refine ⟨⟨by simp, rfl⟩, by simp, ?_, ?_⟩
      · intro hc; exact absurd hm hc
      · intro _
        refine ⟨by simp, ?_, ?_⟩
        · intro j hj
          simp at hj
        · intro _
          exact ⟨rfl, rfl⟩
    | error e =>
      rw [withContext_error]
      dsimp only
      refine ⟨⟨by simp, rfl⟩, by simp, ?_, ?_⟩
      · intro hc; exact absurd hm hc
      · intro _
        refine ⟨by simp, ?_, ?_⟩
        · intro j hj
          simp at hj
        · intro h
          exact Except.noConfusion h
  · rw [if_pos hm]
    refine ⟨⟨by simp, rfl⟩, by simp, ?_, ?_⟩
    · intro _
      refine ⟨rfl, by simp, ?_, rfl⟩
      intro j hj
      simp at hj
    · intro hc
      exact absurd hc hm


/-- Engine stub for the C1 witness: the add succeeds with id 7, but the
re-read inclusion set is only index 0 although indices 0 and 2 were
requested. -/
def c1files : List TorrentFileDetails :=
  [{ name := "a", length := 1, included := true },
   { name := "b", length := 1, included := false },
   { name := "c", length := 1, included := false }]

def c1det : TorrentDetailsResponse where
  id := some 7
  info_hash := "abcdef1234567890"
  name := some "MyShow"
  output_folder := "/dl/MyShow"
  stats := none
  files := some c1files

def c1env : Env :=
  { stubEnv with
    addTorrent := fun _ _ _ => Except.ok { id := some 7, details := c1det }
    torrentDetails := fun _ => Except.ok c1det }

theorem start_download_selection_verified_witness :
    (App.start_download (App.new "/dl") c1env "magnet:?x" "/dl/MyShow" [0, 2]).res
      = Except.error "File selection was not honored; torrent was removed"
    ∧ ApiCall.actionDelete 7 ∈ (App.start_download (App.new "/dl") c1env "magnet:?x" "/dl/MyShow" [0, 2]).calls
    ∧ (∀ j, ApiCall.actionStart j ∉ (App.start_download (App.new "/dl") c1env "magnet:?x" "/dl/MyShow" [0, 2]).calls)
    ∧ (App.start_download (App.new "/dl") c1env "magnet:?x" "/dl/MyShow" [0, 2]).app.torrents
      = (App.new "/dl").torrents := by
  have h := start_download_selection_verified (App.new "/dl") c1env "magnet:?x" "/dl/MyShow"
    [0, 2] (AddTorrent.url "magnet:?x") { id := some 7, details := c1det } 7 c1det c1files
    (by decide) (by decide) rfl rfl rfl rfl
  obtain ⟨-, -, h3, -⟩ := h
  exact h3 (by decide)

/-! ### C2: destination collision avoidance -/

theorem probe_go_calls (env : Env) (m f : String) :
    ∀ (rem attempt : Nat), ∀ call ∈ (probe_go env m f attempt rem).2,
      ∃ add opts, call = ApiCall.addTorrent add opts := by
  intro rem
  induction rem with
  | zero =>
    intro attempt call h
    simp [probe_go] at h
  | succ n ih =>
    intro attempt call h
    rw [probe_go] at h
    cases hb : build_add_torrent env m with
    | error e =>
      rw [hb] at h
      simp at h
    | ok add =>
      rw [hb] at h
      dsimp only at h
      cases ha : env.addTorrent attempt add
          { AddTorrentOptions.default with list_only := true, output_folder := some f } with
      | ok okr =>
        rw [ha] at h
        simp at h
        exact ⟨add, _, h⟩
      | error err =>
        rw [ha] at h
        dsimp only at h
        split at h
        · dsimp only at h
          rcases List.mem_cons.mp h with rfl | h2
          · exact ⟨add, _, rfl⟩
          · exact ih (attempt + 1) call h2
        · simp at h
          exact ⟨add, _, h⟩

theorem createDir_fresh (a : App) (env : Env) (m f p : String)
    (hmem : ApiCall.createDir p ∈ (App.start_file_picker_with_dir a env m f).calls) :
    env.pathExists p = false := by
  unfold App.start_file_picker_with_dir at hmem
  rcases hp : probe_go env m f 0 3 with ⟨r, c⟩
  rw [hp] at hmem
  have hnc : ApiCall.createDir p ∉ c := by
    intro hin
    obtain ⟨add, opts, heq⟩ := probe_go_calls env m f 3 0 (ApiCall.createDir p)
      (by rw [hp]; exact hin)
    cases heq
  cases r with
  | error e => exact absurd hmem hnc
  | ok resp =>
    dsimp only at hmem
    by_cases hd : a.has_same_destination resp.details.info_hash
        (pathJoin f (sanitize_path_component (derive_folder_suffix resp))) = true
    · rw [if_pos hd] at hmem
      exact absurd hmem hnc
    · rw [if_neg hd] at hmem
      by_cases h0 : env.pathExists
          (pathJoin f (sanitize_path_component (derive_folder_suffix resp))) = true
      · rw [if_pos h0] at hmem
        by_cases h1 : env.pathExists
            (pathJoin f (sanitize_path_component (derive_folder_suffix resp) ++ "-"
              ++ String.mk (resp.details.info_hash.data.take 8))) = true
        · rw [if_pos h1] at hmem
          dsimp only at hmem
          exact absurd hmem hnc
        · rw [if_neg h1] at hmem
          dsimp only at hmem
          cases hc2 : env.createDir
              (pathJoin f (sanitize_path_component (derive_folder_suffix resp) ++ "-"
                ++ String.mk (resp.details.info_hash.data.take 8))) with
          | error e2 =>
            rw [hc2, withContext_error] at hmem
            dsimp only at hmem
            rcases List.mem_append.mp hmem with hin | hin
            · exact absurd hin hnc
            · simp at hin
              rw [hin]
              simpa using h1
          | ok u2 =>
            rw [hc2, withContext_ok] at hmem
            simp only [build_picker] at hmem
            rcases List.mem_append.mp hmem with hin | hin
            · exact absurd hin hnc
            · simp at hin
              rw [hin]
              simpa using h1
      · rw [if_neg h0] at hmem
        dsimp only at hmem
        cases hc2 : env.createDir
            (pathJoin f (sanitize_path_component (derive_folder_suffix resp))) with
        | error e2 =>
          rw [hc2, withContext_error] at hmem
          dsimp only at hmem
          rcases List.mem_append.mp hmem with hin | hin
          · exact absurd hin hnc
          · simp at hin
            rw [hin]
            simpa using h0
        | ok u2 =>
          rw [hc2, withContext_ok] at hmem
          simp only [build_picker] at hmem
          rcases List.mem_append.mp hmem with hin | hin
          · exact absurd hin hnc
          · simp at hin
            rw [hin]
            simpa using h0


/-- C2: for every `StartFilePicker` run whose probe succeeds and passes the
duplicate-destination check, when the resolved leaf folder already exists:
the effect never creates a directory at an existing path (in any run), and
it either fails with "Destination folder already exists" without creating
anything when the hash-suffixed alternate also exists, or resolves to the
distinct hash-suffixed folder (derived from the first 8 characters of the
content identity hash) and builds the picker there. -/
theorem start_file_picker_collision_safe
    (a : App) (env : Env) (magnet folder : String)
    (add : AddTorrent) (resp : ApiAddTorrentResponse)
    (hbuild : build_add_torrent env magnet = Except.ok add)
    (hadd : env.addTorrent 0 add
      { AddTorrentOptions.default with
        list_only := true, output_folder := some folder } = Except.ok resp)
    (hdup : a.has_same_destination resp.details.info_hash
      (pathJoin folder (sanitize_path_component (derive_folder_suffix resp))) = false)
    (hexists : env.pathExists
      (pathJoin folder (sanitize_path_component (derive_folder_suffix resp))) = true) :
    (∀ (a2 : App) (env2 : Env) (m2 f2 p : String),
        ApiCall.createDir p ∈ (App.start_file_picker_with_dir a2 env2 m2 f2).calls →
        env2.pathExists p = false)
    ∧ (env.pathExists
        (pathJoin folder (sanitize_path_component (derive_folder_suffix resp) ++ "-"
          ++ String.mk (resp.details.info_hash.data.take 8))) = true →
        (App.start_file_picker_with_dir a env magnet folder).res
          = Except.error "Destination folder already exists"
        ∧ (App.start_file_picker_with_dir a env magnet folder).app = a
        ∧ ∀ p, ApiCall.createDir p ∉ (App.start_file_picker_with_dir a env magnet folder).calls)
    ∧ (env.pathExists
        (pathJoin folder (sanitize_path_component (derive_folder_suffix resp) ++ "-"
          ++ String.mk (resp.details.info_hash.data.take 8))) = false →
        pathJoin folder (sanitize_path_component (derive_folder_suffix resp) ++ "-"
            ++ String.mk (resp.details.info_hash.data.take 8))
          ≠ pathJoin folder (sanitize_path_component (derive_folder_suffix resp))
        ∧ (env.createDir
            (pathJoin folder (sanitize_path_component (derive_folder_suffix resp) ++ "-"
              ++ String.mk (resp.details.info_hash.data.take 8))) = Except.ok () →
            (App.start_file_picker_with_dir a env magnet folder).res = Except.ok ()
            ∧ ∃ picker, (App.start_file_picker_with_dir a env magnet folder).app.file_picker
                = some picker
              ∧ picker.output_folder
                = pathJoin folder (sanitize_path_component (derive_folder_suffix resp) ++ "-"
                  ++ String.mk (resp.details.info_hash.data.take 8)))) := by
  have hprobe : probe_go env magnet folder 0 3 =
      (Except.ok resp, [ApiCall.addTorrent add
        { AddTorrentOptions.default with
          list_only := true, output_folder := some folder }]) := by
    rw [show (3 : Nat) = 2 + 1 from rfl, probe_go, hbuild]
    dsimp only
    rw [hadd]
  refine ⟨fun a2 env2 m2 f2 p hp => createDir_fresh a2 env2 m2 f2 p hp, ?_, ?_⟩
  · intro h1
    unfold App.start_file_picker_with_dir
    rw [hprobe]
    dsimp only
    rw [if_neg (by simp [hdup]), if_pos hexists, if_pos h1]
    refine ⟨rfl, rfl, ?_⟩
    intro p hp
    simp at hp
  · intro h1
    constructor
    · intro hcontra
      have hlen := congrArg String.length hcontra
      simp only [pathJoin, String.length_append,
        show ("-" : String).length = 1 from rfl,
        show ("/" : String).length = 1 from rfl] at hlen
      omega
    · intro hcd
      unfold App.start_file_picker_with_dir
      rw [hprobe]
      dsimp only
      rw [if_neg (by simp [hdup]), if_pos hexists, if_neg (by simp [h1])]
      dsimp only
      rw [hcd, withContext_ok]
      simp [build_picker]


/-- Engine/filesystem stub for the C2 witness: the probe names the torrent
"MyShow" and the directory `/dl/MyShow` already exists. -/
def c2resp : ApiAddTorrentResponse where
  id := some 9
  details :=
    { id := some 9
      info_hash := "abcdef1234567890"
      name := some "MyShow"
      output_folder := "/dl"
      stats := none
      files := some [] }

def c2env : Env :=
  { stubEnv with
    addTorrent := fun _ _ _ => Except.ok c2resp
    pathExists := fun p => p == "/dl/MyShow" }

theorem start_file_picker_collision_safe_witness :
    (App.start_file_picker_with_dir (App.new "/dl") c2env "magnet:?x" "/dl").res = Except.ok ()
    ∧ ∃ picker,
        (App.start_file_picker_with_dir (App.new "/dl") c2env "magnet:?x" "/dl").app.file_picker
          = some picker
        ∧ picker.output_folder = "/dl/MyShow-abcdef12" := by
  have h := start_file_picker_collision_safe (App.new "/dl") c2env "magnet:?x" "/dl"
    (AddTorrent.url "magnet:?x") c2resp (by decide) rfl (by decide) (by decide)
  obtain ⟨-, -, h3⟩ := h
  obtain ⟨-, h4⟩ := h3 (by decide)
  obtain ⟨hres, picker, hp, hf⟩ := h4 rfl
  exact ⟨hres, picker, hp, hf.trans (by decide)⟩

/-! ### C6: the magnet-submission chain -/

/-- C6: submitting a non-empty valid magnet string in EnterMagnet mode, with
an engine whose preflight probe succeeds and reports no already-tracked
torrent with the probed identity hash, results after a full queue drain in
Mode = EnterTorrentDir with the input buffer pre-filled with the default
download directory, the cursor at its end, and `pending_add_input` holding
the submitted (trimmed) string. -/
theorem magnet_submit_drain (s : App) (env : Env) (add : AddTorrent)
    (resp : ApiAddTorrentResponse) (now k : Nat)
    (hmode : s.mode = Mode.EnterMagnet)
    (hhelp : s.show_help = false) (herr : s.last_error = none)
    (hcd : s.confirm_delete = false) (hcq : s.confirm_quit = false)
    (hne : (strTrim (String.mk s.input)).isEmpty = false)
    (hbuild : build_add_torrent env (strTrim (String.mk s.input)) = Except.ok add)
    (hadd : env.addTorrent 0 add
      { AddTorrentOptions.default with
        list_only := true, output_folder := some s.download_dir } = Except.ok resp)
    (hnodup : ((env.listTorrents false).any
      fun t => t.info_hash == resp.details.info_hash) = false) :
    (s.handle_event env (Event.Key ⟨KeyCode.Enter, KeyEventKind.Press⟩) now (k + 3)).res
      = Except.ok false
    ∧ (s.handle_event env (Event.Key ⟨KeyCode.Enter, KeyEventKind.Press⟩) now (k + 3)).app.mode
      = Mode.EnterTorrentDir
    ∧ (s.handle_event env (Event.Key ⟨KeyCode.Enter, KeyEventKind.Press⟩) now (k + 3)).app.pending_add_input
      = some (strTrim (String.mk s.input))
    ∧ (s.handle_event env (Event.Key ⟨KeyCode.Enter, KeyEventKind.Press⟩) now (k + 3)).app.input
      = s.download_dir.data
    ∧ (s.handle_event env (Event.Key ⟨KeyCode.Enter, KeyEventKind.Press⟩) now (k + 3)).app.input_cursor
      = s.download_dir.data.length
    ∧ (s.handle_event env (Event.Key ⟨KeyCode.Enter, KeyEventKind.Press⟩) now (k + 3)).app.dialog
      = Dialog.AddTorrent
    ∧ (s.handle_event env (Event.Key ⟨KeyCode.Enter, KeyEventKind.Press⟩) now (k + 3)).app.status
      = "Set download dir for this torrent" := by
  have hkd : keyDispatch s KeyCode.Enter = [Action.InputEnter] := by
    unfold keyDispatch
    rw [if_neg (by simp [hhelp]), if_neg (by simp [herr]),
      if_neg (by simp [hcd]), if_neg (by simp [hcq]), if_neg (by simp [hmode]), hmode]
  have htr : s.actions_from_key ⟨KeyCode.Enter, KeyEventKind.Press⟩ now
      = (s, [Action.InputEnter]) := by
    rw [App.actions_from_key, if_neg (by simp [keyAccepted]), if_neg (by simp [hmode]), hkd]
  have h1 : s.apply_action env now Action.InputEnter []
      = ⟨{ s with
            mode := Mode.Normal
            input := []
            input_cursor := 0
            status := "Checking torrent..."
            dialog := Dialog.None },
          [Action.RunEffect (Effect.PreflightAdd (strTrim (String.mk s.input)))],
          Except.ok none, []⟩ := by
    rw [App.apply_action]
    dsimp only
    rw [if_pos hmode, hmode]
    dsimp only
    rw [if_neg (by simp [hne]), hbuild]
    dsimp only
    rw [inputEnterFinish, if_neg (by simp)]
    rfl
  have h2 : ∀ s1 : App, s1.download_dir = s.download_dir →
      s1.apply_action env now
        (Action.RunEffect (Effect.PreflightAdd (strTrim (String.mk s.input)))) []
      = ⟨s1, [Action.PreflightAddResult (strTrim (String.mk s.input))], Except.ok none,
          [ApiCall.addTorrent add
            { AddTorrentOptions.default with
              list_only := true, output_folder := some s.download_dir },
           ApiCall.listTorrents false]⟩ := by
    intro s1 hdd
    have hpf : s1.preflight_add env (strTrim (String.mk s.input))
        = (Except.ok [Action.PreflightAddResult (strTrim (String.mk s.input))],
           [ApiCall.addTorrent add
            { AddTorrentOptions.default with
              list_only := true, output_folder := some s.download_dir },
            ApiCall.listTorrents false]) := by
      rw [App.preflight_add, hbuild]
      dsimp only
      rw [hdd, hadd, withContext_ok]
      dsimp only
      rw [if_neg (by simp [hnodup])]
    rw [App.apply_action]
    dsimp only
    rw [App.run_effect, hpf]
    dsimp only
    rfl
  rw [App.handle_event]
  dsimp only [App.actions_from_event]
  rw [htr]
  rw [show k + 3 = (k + 2) + 1 from rfl, drain, h1]
  dsimp only
  rw [show k + 2 = (k + 1) + 1 from rfl, drain,
    h2 { s with
      mode := Mode.Normal
      input := []
      input_cursor := 0
      status := "Checking torrent..."
      dialog := Dialog.None } rfl]
  dsimp only
  rw [drain]
  rw [App.apply_action]
  dsimp only
  rw [drain]
  exact ⟨rfl, rfl, rfl, rfl, rfl, rfl, rfl⟩


/-- Engine stub for the C6 witness: the preflight probe succeeds and no
torrent with the probed identity hash is tracked. -/
def c6env : Env :=
  { stubEnv with
    addTorrent := fun _ _ _ => Except.ok
      { id := none
        details :=
          { id := none
            info_hash := "feedbead"
            name := some "X"
            output_folder := "/dl"
            stats := none
            files := none } } }

theorem magnet_submit_drain_witness :
    (({ App.new "/dl" with
        mode := Mode.EnterMagnet
        dialog := Dialog.AddTorrent
        input := "magnet:?xt=x".data } : App).handle_event c6env
          (Event.Key ⟨KeyCode.Enter, KeyEventKind.Press⟩) 0 3).app.mode = Mode.EnterTorrentDir
    ∧ (({ App.new "/dl" with
        mode := Mode.EnterMagnet
        dialog := Dialog.AddTorrent
        input := "magnet:?xt=x".data } : App).handle_event c6env
          (Event.Key ⟨KeyCode.Enter, KeyEventKind.Press⟩) 0 3).app.pending_add_input
      = some "magnet:?xt=x"
    ∧ (({ App.new "/dl" with
        mode := Mode.EnterMagnet
        dialog := Dialog.AddTorrent
        input := "magnet:?xt=x".data } : App).handle_event c6env
          (Event.Key ⟨KeyCode.Enter, KeyEventKind.Press⟩) 0 3).app.input = "/dl".data
    ∧ (({ App.new "/dl" with
        mode := Mode.EnterMagnet
        dialog := Dialog.AddTorrent
        input := "magnet:?xt=x".data } : App).handle_event c6env
          (Event.Key ⟨KeyCode.Enter, KeyEventKind.Press⟩) 0 3).app.input_cursor = 3 := by
  have h := magnet_submit_drain
    { App.new "/dl" with
      mode := Mode.EnterMagnet
      dialog := Dialog.AddTorrent
      input := "magnet:?xt=x".data } c6env (AddTorrent.url "magnet:?xt=x")
    { id := none
      details :=
        { id := none
          info_hash := "feedbead"
          name := some "X"
          output_folder := "/dl"
          stats := none
          files := none } } 0 0 rfl rfl rfl rfl rfl (by decide) (by decide) rfl rfl
  obtain ⟨-, h2, h3, h4, h5, -, -⟩ := h
  exact ⟨h2, h3.trans (by decide), h4, h5.trans (by decide)⟩

end IttyBitty

namespace IttyBitty

/-- The C7 invariant: the wizard carrier `pending_add_input` is populated
only while the mode is the destination-entry mode. -/
def PendingInv (s : App) : Prop :=
  s.pending_add_input.isSome = true → s.mode = Mode.EnterTorrentDir

/-- Actions that could change the mode away from `EnterTorrentDir` without
clearing `pending_add_input`; neither the input translator in the
destination-entry mode nor the reducer ever queues one while the carrier is
populated. -/
def forbiddenWithPending : Action → Bool
  | Action.StartAdd => true
  | Action.FilePickerCancel => true
  | Action.FilePickerConfirm => true
  | Action.RunEffect (Effect.StartFilePicker _ _) => true
  | Action.RunEffect (Effect.StartDownload _ _ _) => true
  | _ => false

/-- A queued action is safe for a state: if the carrier is populated the
action is not one of the mode-stealing ones. -/
def SafeAction (s : App) (act : Action) : Prop :=
  s.pending_add_input.isSome = true → forbiddenWithPending act = false

@[simp] theorem inputEnterFinish_pending (x : App) :
    (inputEnterFinish x).pending_add_input = x.pending_add_input := by
  rw [inputEnterFinish]; split <;> rfl

@[simp] theorem set_error_pending (s : App) (e : String) :
    (s.set_error e).pending_add_input = none := rfl

@[simp] theorem set_error_mode (s : App) (e : String) :
    (s.set_error e).mode = Mode.Normal := rfl

theorem should_ignore_shape (a : App) (now : Nat) :
    ∃ lc st, (a.should_ignore_paste_char now).2 = { a with last_char_at := lc, status := st } := by
  rw [App.should_ignore_paste_char]
  repeat' split
  all_goals exact ⟨_, _, rfl⟩

theorem actions_from_key_state (a : App) (key : KeyEvent) (now : Nat) :
    (a.actions_from_key key now).1.pending_add_input = a.pending_add_input
    ∧ (a.actions_from_key key now).1.mode = a.mode := by
  obtain ⟨lc, st, hsh⟩ := should_ignore_shape a now
  rw [App.actions_from_key]
  split
  · simp
  · split
    · split
      · split
        · simp
        · dsimp only
          split <;> simp [hsh]
      · simp
    · simp

theorem ite_length_le (P : Prop) [Decidable P] (l1 l2 : List Action)
    (h1 : l1.length ≤ 1) (h2 : l2.length ≤ 1) : (if P then l1 else l2).length ≤ 1 := by
  split <;> assumption

set_option maxHeartbeats 1000000 in
theorem keyDispatch_len (a : App) (code : KeyCode) :
    (keyDispatch a code).length ≤ 1 := by
  unfold keyDispatch
  cases code <;> cases hfo : a.focus <;> cases hm : a.mode <;> dsimp only <;>
    (repeat' apply ite_length_le) <;> first
      | decide
      | simp

theorem ite_safe (P : Prop) [Decidable P] (l1 l2 : List Action)
    (h1 : ∀ x ∈ l1, forbiddenWithPending x = false)
    (h2 : ∀ x ∈ l2, forbiddenWithPending x = false) :
    ∀ x ∈ (if P then l1 else l2), forbiddenWithPending x = false := by
  split <;> assumption

set_option maxHeartbeats 1000000 in
theorem keyDispatch_safe (a : App) (code : KeyCode)
    (hm : a.mode = Mode.EnterTorrentDir) :
    ∀ x ∈ keyDispatch a code, forbiddenWithPending x = false := by
  unfold keyDispatch
  rw [hm, if_neg (show ¬(Mode.EnterTorrentDir = Mode.Normal) by simp)]
  cases code <;> dsimp only <;> (repeat' apply ite_safe) <;> first
    | decide
    | simp [forbiddenWithPending]

theorem actions_from_key_len (a : App) (key : KeyEvent) (now : Nat) :
    (a.actions_from_key key now).2.length ≤ 1 := by
  rw [App.actions_from_key]
  split
  · simp
  · split
    · split
      · split
        · exact keyDispatch_len _ _
        · dsimp only
          split
          · simp
          · exact keyDispatch_len _ _
      · exact keyDispatch_len _ _
    · exact keyDispatch_len _ _

theorem actions_from_key_safe (a : App) (key : KeyEvent) (now : Nat)
    (hm : a.mode = Mode.EnterTorrentDir) :
    ∀ x ∈ (a.actions_from_key key now).2, forbiddenWithPending x = false := by
  rw [App.actions_from_key]
  split
  · simp
  · split
    · next h => rw [hm] at h; exact absurd h (by simp)
    · exact keyDispatch_safe a key.code hm

/-- The translated event establishes the drain preconditions. -/
theorem translator_ok (a : App) (ev : Event) (now : Nat) (hinv : PendingInv a) :
    PendingInv (a.actions_from_event ev now).1
    ∧ (a.actions_from_event ev now).2.length ≤ 1
    ∧ ∀ x ∈ (a.actions_from_event ev now).2,
        SafeAction (a.actions_from_event ev now).1 x := by
  cases ev with
  | Key key =>
    dsimp only [App.actions_from_event]
    obtain ⟨hp, hmo⟩ := actions_from_key_state a key now
    refine ⟨?_, actions_from_key_len a key now, ?_⟩
    · intro h
      rw [hp] at h
      rw [hmo]
      exact hinv h
    · intro x hx h
      rw [hp] at h
      exact actions_from_key_safe a key now (hinv h) x hx
  | Paste text =>
    refine ⟨hinv, by simp [App.actions_from_event], ?_⟩
    intro x hx _
    simp [App.actions_from_event] at hx
    subst hx
    rfl
  | Resize =>
    exact ⟨hinv, by simp [App.actions_from_event], by
      intro x hx; simp [App.actions_from_event] at hx⟩
  | Other =>
    exact ⟨hinv, by simp [App.actions_from_event], by
      intro x hx; simp [App.actions_from_event] at hx⟩

theorem toOut_res_ok (r : EffResult) (next : List Action)
    (h : r.toOut.res = Except.ok next) : next = [] := by
  unfold EffResult.toOut at h
  cases hres : r.res with
  | ok u => rw [hres] at h; simp [Except.map] at h; exact h
  | error e => rw [hres] at h; simp [Except.map] at h

theorem preflight_res_shape (a : App) (env : Env) (m : String) (next : List Action)
    (h : (a.preflight_add env m).1 = Except.ok next) :
    next = [Action.PreflightAddResult m] := by
  unfold App.preflight_add at h
  cases hb : build_add_torrent env m with
  | error e => rw [hb] at h; simp at h
  | ok add =>
    rw [hb] at h
    dsimp only at h
    cases ha : withContext ("error listing files") (env.addTorrent 0 add
        { AddTorrentOptions.default with
          list_only := true, output_folder := some a.download_dir }) with
    | error e => rw [ha] at h; simp at h
    | ok resp =>
      rw [ha] at h
      dsimp only at h
      split at h
      · simp at h
      · simp at h
        exact h.symm

theorem run_effect_next_shape (a : App) (env : Env) (e : Effect) (next : List Action)
    (h : (a.run_effect env e).res = Except.ok next) :
    next = [] ∨ ∃ m, next = [Action.PreflightAddResult m] := by
  cases e with
  | Refresh =>
    left
    simp only [App.run_effect] at h
    simpa using h
  | TogglePause => exact Or.inl (toOut_res_ok _ _ h)
  | StopSelected => exact Or.inl (toOut_res_ok _ _ h)
  | DeleteSelectedFiles => exact Or.inl (toOut_res_ok _ _ h)
  | PreflightAdd m =>
    right
    refine ⟨m, ?_⟩
    simp only [App.run_effect] at h
    exact preflight_res_shape a env m next h
  | StartFilePicker m f => exact Or.inl (toOut_res_ok _ _ h)
  | StartDownload m f of =>
    left
    simp only [App.run_effect] at h
    split at h
    · cases h
    · simpa using h

theorem run_effect_mode_benign (a : App) (env : Env) (e : Effect)
    (hb : forbiddenWithPending (Action.RunEffect e) = false) :
    (a.run_effect env e).app.mode = a.mode := by
  cases e with
  | Refresh =>
    simp only [App.run_effect]
    exact (refresh_text a env).2.2.2
  | TogglePause =>
    obtain ⟨st, h⟩ := toggle_pause_shape a env
    simp [App.run_effect, EffResult.toOut, h]
  | StopSelected =>
    obtain ⟨st, h⟩ := stop_selected_shape a env
    simp [App.run_effect, EffResult.toOut, h]
  | DeleteSelectedFiles =>
    obtain ⟨st, h⟩ := delete_selected_shape a env
    simp [App.run_effect, EffResult.toOut, h]
  | PreflightAdd m => rfl
  | StartFilePicker m f => simp [forbiddenWithPending] at hb
  | StartDownload m f of => simp [forbiddenWithPending] at hb


theorem backspace_shape (a : App) :
    ∃ i c, a.backspace = { a with input := i, input_cursor := c } := by
  rw [App.backspace]
  split
  · exact ⟨a.input, a.input_cursor, rfl⟩
  · exact ⟨_, _, rfl⟩

theorem delete_shape (a : App) :
    ∃ i, a.delete = { a with input := i } := by
  rw [App.delete]
  split
  · exact ⟨a.input, rfl⟩
  · exact ⟨_, rfl⟩

set_option maxHeartbeats 1000000 in
theorem step_ok (s : App) (env : Env) (now : Nat) (act : Action)
    (hinv : PendingInv s) (hsafe : SafeAction s act) (b : Option Bool)
    (hres : (s.apply_action env now act []).res = Except.ok b) :
    PendingInv (s.apply_action env now act []).app
    ∧ (s.apply_action env now act []).queue.length ≤ 1
    ∧ ∀ x ∈ (s.apply_action env now act []).queue,
        SafeAction (s.apply_action env now act []).app x := by
  cases act with
  | MoveSelection delta =>
    obtain ⟨n, hm2⟩ := move_selection_shape s delta
    simp only [App.apply_action, hm2]
    exact ⟨fun h => hinv h, by simp, by intro x hx; simp at hx⟩
  | MoveFilter delta =>
    simp only [App.apply_action]
    split
    · obtain ⟨n, hs2⟩ := ensure_selection_shape
        { s with filter_index := s.filter_index - delta.natAbs }
      rw [hs2]
      exact ⟨fun h => hinv h, by simp, by intro x hx; simp at hx⟩
    · obtain ⟨n, hs2⟩ := ensure_selection_shape
        { s with filter_index := min (s.filter_index + delta.toNat) (FILTERS.length - 1) }
      rw [hs2]
      exact ⟨fun h => hinv h, by simp, by intro x hx; simp at hx⟩
  | SetFilter index =>
    obtain ⟨n, hs2⟩ := ensure_selection_shape
      { s with filter_index := min index (FILTERS.length - 1) }
    simp only [App.apply_action, hs2]
    exact ⟨fun h => hinv h, by simp, by intro x hx; simp at hx⟩
  | StartAdd =>
    refine ⟨?_, by simp [App.apply_action], by intro x hx; simp [App.apply_action] at hx⟩
    intro h
    exact absurd (hsafe h) (by simp [forbiddenWithPending])
  | FilePickerCancel =>
    refine ⟨?_, by simp [App.apply_action], by intro x hx; simp [App.apply_action] at hx⟩
    intro h
    exact absurd (hsafe h) (by simp [forbiddenWithPending])
  | FilePickerConfirm =>
    simp only [App.apply_action]
    cases hfp : s.file_picker with
    | none => exact ⟨fun h => hinv h, by simp, by intro x hx; simp at hx⟩
    | some picker =>
      refine ⟨fun h => hinv h, by simp, ?_⟩
      intro x hx h
      exact absurd (hsafe h) (by simp [forbiddenWithPending])
  | InputCancel =>
    simp only [App.apply_action]
    cases hm2 : s.mode with
    | EnterTorrentDir =>
      cases hp2 : s.pending_add_input with
      | none =>
        exact ⟨by intro h; simp at h, by simp, by intro x hx; simp at hx⟩
      | some v =>
        refine ⟨by intro h; simp at h, by simp, ?_⟩
        intro x hx h
        simp at h
    | Normal => exact ⟨by intro h; simp at h; exact absurd (hinv h) (by simp [hm2]),
        by simp, by intro x hx; simp at hx⟩
    | EnterMagnet => exact ⟨by intro h; simp at h; exact absurd (hinv h) (by simp [hm2]),
        by simp, by intro x hx; simp at hx⟩
    | FilePicker => exact ⟨by intro h; simp at h; exact absurd (hinv h) (by simp [hm2]),
        by simp, by intro x hx; simp at hx⟩
  | InputEnter =>
    rw [App.apply_action]
    by_cases hm2 : s.mode = Mode.EnterMagnet
    · rw [if_pos hm2]
      dsimp only
      rw [hm2]
      dsimp only
      split
      · exact ⟨by intro h; simp at h, by simp, by intro x hx; simp at hx⟩
      · cases hb : build_add_torrent env (strTrim (String.mk s.input)) with
        | error err =>
          exact ⟨by intro h; simp at h, by simp, by intro x hx; simp at hx⟩
        | ok add =>
          refine ⟨?_, by simp, ?_⟩
          · intro h
            simp at h
            exact absurd (hinv h) (by simp [hm2])
          · intro x hx h
            simp at hx
            subst hx
            rfl
    · rw [if_neg hm2]
      dsimp only
      cases hm3 : s.mode with
      | EnterMagnet => exact absurd hm3 hm2
      | Normal =>
        refine ⟨?_, by simp, by intro x hx; simp at hx⟩
        intro h
        simp at h
        exact absurd (hinv h) (by simp [hm3])
      | FilePicker =>
        refine ⟨?_, by simp, by intro x hx; simp at hx⟩
        intro h
        simp at h
        exact absurd (hinv h) (by simp [hm3])
      | EnterTorrentDir =>
        cases hp2 : s.pending_add_input with
        | none => exact ⟨by intro h; simp at h, by simp,
            by intro x hx; simp at hx⟩
        | some v =>
          refine ⟨by intro h; simp at h, by simp, ?_⟩
          intro x hx h
          simp at h
  | InputBackspace =>
    obtain ⟨i, c2, hb2⟩ := backspace_shape s
    simp only [App.apply_action, hb2]
    exact ⟨fun h => hinv h, by simp, by intro x hx; simp at hx⟩
  | InputDelete =>
    obtain ⟨i, hb2⟩ := delete_shape s
    simp only [App.apply_action, hb2]
    exact ⟨fun h => hinv h, by simp, by intro x hx; simp at hx⟩
  | RunEffect e =>
    simp only [App.apply_action] at hres ⊢
    rcases hr : (s.run_effect env e).res with er | next
    · rw [hr] at hres
      simp at hres
    · dsimp only
      refine ⟨?_, ?_, ?_⟩
      · intro h
        have hp := (run_effect_text s env e).2.2
        rw [hp] at h
        rw [run_effect_mode_benign s env e (hsafe h)]
        exact hinv h
      · rcases run_effect_next_shape s env e next hr with rfl | ⟨m, rfl⟩ <;> simp
      · intro x hx h2
        rcases run_effect_next_shape s env e next hr with rfl | ⟨m, rfl⟩
        · simp at hx
        · simp at hx
          subst hx
          rfl
  | PreflightAddResult m =>
    exact ⟨fun _ => rfl, by simp [App.apply_action], by
      intro x hx; simp [App.apply_action] at hx⟩
  | _ =>
    refine ⟨?_, ?_, ?_⟩ <;> simp only [App.apply_action] <;> (try dsimp only) <;>
      (repeat' split) <;>
      first
        | exact fun h => hinv h
        | (simp; done)
        | (intro x hx; simp at hx; done)
        | (intro x hx; simp at hx; subst hx; exact fun h2 => rfl)


theorem drain_inv (env : Env) (now : Nat) :
    ∀ (fuel : Nat) (s : App) (q : List Action),
      PendingInv s → q.length ≤ 1 → (∀ x ∈ q, SafeAction s x) →
      ∀ b, (drain env now fuel s q).res = Except.ok b →
        PendingInv (drain env now fuel s q).app := by
  intro fuel
  induction fuel with
  | zero =>
    intro s q hinv hlen hsafe b hres
    cases q with
    | nil => exact hinv
    | cons a r => exact hinv
  | succ n ih =>
    intro s q hinv hlen hsafe b hres
    cases q with
    | nil => exact hinv
    | cons act rest =>
      have hrest : rest = [] := by
        cases rest with
        | nil => rfl
        | cons y ys => simp at hlen
      subst hrest
      rw [drain] at hres ⊢
      rcases hr : (s.apply_action env now act []).res with er | ob
      · rw [hr] at hres
        simp at hres
      · rw [hr] at hres
        obtain ⟨h1, h2, h3⟩ := step_ok s env now act hinv (hsafe act (by simp)) ob hr
        cases ob with
        | some quit => exact h1
        | none =>
          dsimp only at hres ⊢
          exact ih (s.apply_action env now act []).app
            (s.apply_action env now act []).queue h1 h2 h3 b hres

/-- C7: `pending_add_input` is populated only while the mode is the
destination-entry mode (`EnterTorrentDir`; the spec calls it
EnterDestinationText).  The invariant holds in the initial state, is
re-established by the error funnel `set_error` and by the periodic
`refresh`, and is preserved by a full `handle_event` pass (translate the
terminal event, drain the action queue, funnel a drain error into
`set_error`), for every incoming event, engine oracle, timestamp and fuel
bound. -/
theorem pending_add_input_invariant :
    (∀ dir, PendingInv (App.new dir))
    ∧ (∀ (a : App) (e : String), PendingInv (a.set_error e))
    ∧ (∀ (a : App) (env : Env), PendingInv a → PendingInv (a.refresh env).1)
    ∧ (∀ (s : App) (env : Env) (ev : Event) (now fuel : Nat),
        PendingInv s →
        PendingInv ((s.handle_event env ev now fuel).settle)) := by
  refine ⟨?_, ?_, ?_, ?_⟩
  · intro dir h
    simp [App.new] at h
  · intro a e h
    simp at h
  · intro a env hinv h
    rw [(refresh_text a env).2.2.1] at h
    rw [(refresh_text a env).2.2.2]
    exact hinv h
  · intro s env ev now fuel hinv
    unfold App.handle_event DrainOut.settle
    obtain ⟨h1, h2, h3⟩ := translator_ok s ev now hinv
    rcases hd : (drain env now fuel (s.actions_from_event ev now).1
        (s.actions_from_event ev now).2).res with er | b
    · intro h
      simp at h
    · exact drain_inv env now fuel _ _ h1 h2 h3 b hd

/-- C7 witness: a concrete full pass (pressing the add hotkey from the
initial state) through `handle_event` and `settle` keeps the invariant. -/
theorem pending_add_input_invariant_witness :
    PendingInv (((App.new "/dl").handle_event stubEnv
      (Event.Key ⟨KeyCode.Char 'a', KeyEventKind.Press⟩) 0 5).settle) :=
  pending_add_input_invariant.2.2.2 (App.new "/dl") stubEnv
    (Event.Key ⟨KeyCode.Char 'a', KeyEventKind.Press⟩) 0 5
    (by intro h; simp [App.new] at h)

end IttyBitty
